import Mathlib

set_option linter.unusedVariables false

/-!
# TagForge configuration service: formal model

A shallow embedding of the TagForge configuration service (Go).  The
embedding covers the entity records and their validation constraints, the
relational schema of the `tags`, `environments`, `templates` and
`template_tags` tables together with their uniqueness, foreign-key,
cascade and trigger rules, the migration runner wrapping golang-migrate,
the health and readiness handlers, the two list endpoints, and the
`database/sql` Scanner and Valuer implementations of `ConfigFormat` and
`JSONMap`.

Machine integers are modelled as `Nat`/`Int`; timestamps are abstract
`Nat` clock readings supplied to each operation; fallible operations
return `Except`.
-/

/-! ## JSON documents

`JSONMap` in the source is `map[string]interface{}` marshalled to and
from JSONB bytes by `encoding/json`.  We model document values by the
mutual inductive `JVal`/`JArr`/`JObj` (numbers as integers), and the
serialized byte string at token granularity: `json.Marshal` renders a
token list, `json.Unmarshal` parses one.  A Go map corresponds to a
`JObj` whose keys are pairwise distinct, listed in the key order chosen
by the marshaller. -/

/-- One lexical token of a serialized JSON document. -/
inductive JTok where
  | tnull
  | tbool (b : Bool)
  | tnum (n : Int)
  | tstr (s : String)
  | lbrace
  | rbrace
  | lbrack
  | rbrack
  | colon
  | comma
deriving DecidableEq, Repr

mutual
/-- A JSON document value. -/
inductive JVal where
  | null
  | bool (b : Bool)
  | num (n : Int)
  | str (s : String)
  | arr (xs : JArr)
  | obj (ms : JObj)
/-- A list of JSON array elements. -/
inductive JArr where
  | nil
  | cons (hd : JVal) (tl : JArr)
/-- A list of JSON object members. -/
inductive JObj where
  | nil
  | cons (k : String) (v : JVal) (tl : JObj)
end

mutual
/-- Serialization of a JSON value to tokens (the model of `json.Marshal`). -/
def JVal.render : JVal → List JTok
  | .null => [.tnull]
  | .bool b => [.tbool b]
  | .num n => [.tnum n]
  | .str s => [.tstr s]
  | .arr .nil => [.lbrack, .rbrack]
  | .arr (.cons x tl) => .lbrack :: (x.render ++ JArr.renderRest tl)
  | .obj .nil => [.lbrace, .rbrace]
  | .obj (.cons k v tl) => .lbrace :: .tstr k :: .colon :: (v.render ++ JObj.renderRest tl)
/-- Serialization of the remaining array elements after the first. -/
def JArr.renderRest : JArr → List JTok
  | .nil => [.rbrack]
  | .cons x tl => .comma :: (x.render ++ JArr.renderRest tl)
/-- Serialization of the remaining object members after the first. -/
def JObj.renderRest : JObj → List JTok
  | .nil => [.rbrace]
  | .cons k v tl => .comma :: .tstr k :: .colon :: (v.render ++ JObj.renderRest tl)
end

mutual
/-- Fueled parser for a JSON value (the model of `json.Unmarshal`). -/
def parseVal : Nat → List JTok → Option (JVal × List JTok)
  | 0, _ => none
  | _ + 1, [] => none
  | fuel + 1, t :: ts =>
    match t with
    | .tnull => some (.null, ts)
    | .tbool b => some (.bool b, ts)
    | .tnum n => some (.num n, ts)
    | .tstr s => some (.str s, ts)
    | .lbrack =>
      if ts.head? = some .rbrack then some (.arr .nil, ts.tail)
      else do
        let (x, r) ← parseVal fuel ts
        let (tl, r2) ← parseArrRest fuel r
        some (.arr (.cons x tl), r2)
    | .lbrace =>
      if ts.head? = some .rbrace then some (.obj .nil, ts.tail)
      else
        match ts with
        | .tstr k :: .colon :: ts2 => do
          let (v, r) ← parseVal fuel ts2
          let (tl, r2) ← parseObjRest fuel r
          some (.obj (.cons k v tl), r2)
        | _ => none
    | _ => none
/-- Fueled parser for the remaining array elements. -/
def parseArrRest : Nat → List JTok → Option (JArr × List JTok)
  | 0, _ => none
  | _ + 1, .rbrack :: r => some (.nil, r)
  | fuel + 1, .comma :: ts => do
    let (x, r) ← parseVal fuel ts
    let (tl, r2) ← parseArrRest fuel r
    some (.cons x tl, r2)
  | _ + 1, _ => none
/-- Fueled parser for the remaining object members. -/
def parseObjRest : Nat → List JTok → Option (JObj × List JTok)
  | 0, _ => none
  | _ + 1, .rbrace :: r => some (.nil, r)
  | fuel + 1, .comma :: .tstr k :: .colon :: ts => do
    let (v, r) ← parseVal fuel ts
    let (tl, r2) ← parseObjRest fuel r
    some (.cons k v tl, r2)
  | _ + 1, _ => none
end

/-! ## SQL driver values -/

/-- A value handed to a `sql.Scanner` by the database driver (Go
`interface{}`), restricted to the cases that occur for this schema.
Raw byte strings are modelled at token granularity. -/
inductive SqlVal where
  | null
  | str (s : String)
  | bytes (ts : List JTok)
  | int (n : Int)
  | bool (b : Bool)
deriving DecidableEq, Repr

/-- The Go dynamic type name of a driver value, used in scan error texts. -/
def SqlVal.typeName : SqlVal → String
  | .null => "nil"
  | .str _ => "string"
  | .bytes _ => "uint8 slice"
  | .int _ => "int64"
  | .bool _ => "bool"

/-! ## ConfigFormat (Scanner and Valuer from the source) -/

/-- `ConfigFormat` is a string type: `type ConfigFormat string`. -/
structure ConfigFormat where
  val : String
deriving DecidableEq, Repr

/-- Declared constant `ConfigFormatJSON`. -/
def ConfigFormatJSON : ConfigFormat := ⟨"json"⟩
/-- Declared constant `ConfigFormatYAML`. -/
def ConfigFormatYAML : ConfigFormat := ⟨"yaml"⟩
/-- Declared constant `ConfigFormatTOML`. -/
def ConfigFormatTOML : ConfigFormat := ⟨"toml"⟩
/-- Declared constant `ConfigFormatEnv`. -/
def ConfigFormatEnv : ConfigFormat := ⟨"env"⟩

/-- `ConfigFormat.Scan` from the source: a nil driver value scans to the
`json` format, any string scans to itself with no membership check in
the declared formats, and every other driver value is an error. -/
def ConfigFormat.Scan : SqlVal → Except String ConfigFormat
  | .null => .ok ConfigFormatJSON
  | .str s => .ok ⟨s⟩
  | v => .error ("cannot scan " ++ v.typeName ++ " into ConfigFormat")

/-- `ConfigFormat.Value` from the source: always the underlying string. -/
def ConfigFormat.Value (cf : ConfigFormat) : SqlVal := .str cf.val

/-! ## JSONMap (Scanner and Valuer from the source) -/

/-- `JSONMap.Value` from the source: a nil map produces a nil driver
value, otherwise `json.Marshal` of the map. -/
def JSONMap.Value : Option JObj → SqlVal
  | none => .null
  | some m => .bytes (JVal.render (.obj m))

/-- `JSONMap.Scan` from the source: nil scans to a fresh empty map, a
byte string is `json.Unmarshal`-ed into the map, and every other driver
value is an error.  The unmarshal target is a map, so the document must
be a single complete object; its inner shape is not inspected. -/
def JSONMap.Scan : SqlVal → Except String JObj
  | .null => .ok .nil
  | .bytes bs =>
    match parseVal (bs.length + 1) bs with
    | some (.obj m, []) => .ok m
    | _ => .error "json: cannot unmarshal value into JSONMap"
  | v => .error ("cannot scan " ++ v.typeName ++ " into JSONMap")

/-! ## Relational schema

Translated from the DDL: the `tags` table and the
`update_updated_at_column` trigger function come from the Postgres init
script in `docker-compose.yml`; `environments`, `templates` and
`template_tags` come from migration `002_create_environments_table.up.sql`.
Timestamps are abstract clock readings (`Nat`); each statement receives
the server time `now` (the value of `NOW()`). -/

/-- A row of `tags(id, name UNIQUE, description, color, created_at, updated_at)`. -/
structure TagRow where
  id : Nat
  name : String
  description : String
  color : String
  created_at : Nat
  updated_at : Nat
deriving DecidableEq, Repr

/-- A row of `environments(id, name UNIQUE, slug UNIQUE, description,
active, priority CHECK 0..100, created_at, updated_at)`. -/
structure EnvRow where
  id : Nat
  name : String
  slug : String
  description : String
  active : Bool
  priority : Int
  created_at : Nat
  updated_at : Nat
deriving DecidableEq, Repr

/-- A row of `templates(...)` with `UNIQUE(name, environment_id)` and
`environment_id REFERENCES environments ON DELETE CASCADE`. -/
structure TemplateRow where
  id : Nat
  name : String
  description : String
  format : ConfigFormat
  content : String
  schema : Option JObj
  default_values : Option JObj
  version : String
  environment_id : Nat
  active : Bool
  created_at : Nat
  updated_at : Nat
  created_by : String
  updated_by : String

/-- A row of the `template_tags` junction table:
`(template_id FK→templates CASCADE, tag_id FK→tags CASCADE,
PRIMARY KEY(template_id, tag_id))`. -/
structure TemplateTagRow where
  template_id : Nat
  tag_id : Nat
deriving DecidableEq, Repr

/-- The state of the relational store: the four tables plus the
`BIGSERIAL` sequences backing the three `id` columns. -/
structure DBState where
  tags : List TagRow
  environments : List EnvRow
  templates : List TemplateRow
  template_tags : List TemplateTagRow
  nextTagId : Nat
  nextEnvId : Nat
  nextTemplateId : Nat

/-- The store right after `CREATE TABLE`: all tables empty, sequences at 1. -/
def dbInit : DBState :=
  { tags := [], environments := [], templates := [], template_tags := [],
    nextTagId := 1, nextEnvId := 1, nextTemplateId := 1 }

/-- A statement-level error raised by the store itself. -/
inductive DbErr where
  | uniqueViolation (constraint : String)
  | checkViolation (constraint : String)
  | fkViolation (constraint : String)
deriving DecidableEq, Repr

/-- `INSERT INTO tags (name, description, color)`: rejected by the
`tags_name_key` unique constraint on a duplicate name; `created_at` and
`updated_at` both take their column default `NOW()`. -/
def insertTag (s : DBState) (now : Nat) (name description color : String) :
    Except DbErr DBState :=
  if s.tags.any (fun r => r.name = name) then
    .error (.uniqueViolation "tags_name_key")
  else
    .ok { s with
      tags := s.tags ++ [{
        id := s.nextTagId, name := name,
        description := description, color := color,
        created_at := now, updated_at := now }],
      nextTagId := s.nextTagId + 1 }

/-- `INSERT INTO environments (name, slug, description, active, priority)`:
rejected on a duplicate name or slug (unique constraints) or a priority
outside the `CHECK (priority >= 0 AND priority <= 100)` range. -/
def insertEnvironment (s : DBState) (now : Nat) (name slug description : String)
    (active : Bool) (priority : Int) : Except DbErr DBState :=
  if s.environments.any (fun r => r.name = name) then
    .error (.uniqueViolation "environments_name_key")
  else if s.environments.any (fun r => r.slug = slug) then
    .error (.uniqueViolation "environments_slug_key")
  else if ¬ (0 ≤ priority ∧ priority ≤ 100) then
    .error (.checkViolation "environments_priority_check")
  else
    .ok { s with
      environments := s.environments ++ [{
        id := s.nextEnvId, name := name,
        slug := slug, description := description, active := active,
        priority := priority, created_at := now, updated_at := now }],
      nextEnvId := s.nextEnvId + 1 }

/-- `INSERT INTO templates (...)`: rejected on a duplicate
`(name, environment_id)` pair (unique constraint) or a missing referenced
environment (foreign key). -/
def insertTemplate (s : DBState) (now : Nat) (name description : String)
    (format : ConfigFormat) (content : String)
    (schema default_values : Option JObj) (version : String)
    (environment_id : Nat) (active : Bool) (created_by updated_by : String) :
    Except DbErr DBState :=
  if s.templates.any (fun t => t.name = name ∧ t.environment_id = environment_id) then
    .error (.uniqueViolation "templates_name_environment_id_key")
  else if ¬ s.environments.any (fun e => e.id = environment_id) then
    .error (.fkViolation "templates_environment_id_fkey")
  else
    .ok { s with
      templates := s.templates ++ [{
        id := s.nextTemplateId, name := name,
        description := description, format := format, content := content,
        schema := schema, default_values := default_values,
        version := version, environment_id := environment_id,
        active := active, created_at := now, updated_at := now,
        created_by := created_by, updated_by := updated_by }],
      nextTemplateId := s.nextTemplateId + 1 }

/-- `INSERT INTO template_tags (template_id, tag_id)`: rejected on a
duplicate pair (primary key) or a missing referenced row (foreign keys). -/
def insertTemplateTag (s : DBState) (template_id tag_id : Nat) :
    Except DbErr DBState :=
  if s.template_tags.any (fun tt => tt.template_id = template_id ∧ tt.tag_id = tag_id) then
    .error (.uniqueViolation "template_tags_pkey")
  else if ¬ s.templates.any (fun t => t.id = template_id) then
    .error (.fkViolation "template_tags_template_id_fkey")
  else if ¬ s.tags.any (fun r => r.id = tag_id) then
    .error (.fkViolation "template_tags_tag_id_fkey")
  else
    .ok { s with template_tags := s.template_tags ++ [{ template_id, tag_id }] }

/-- `UPDATE tags SET ... WHERE id = id`: absent columns keep their value;
the `update_tags_updated_at` trigger (`BEFORE UPDATE`, executing
`update_updated_at_column`) overwrites `NEW.updated_at` with `NOW()`
whatever columns the statement sets; the unique constraint also guards
updates.  Updating a missing id affects zero rows and succeeds. -/
def tagPatch (now : Nat) (name description color : Option String)
    (r : TagRow) : TagRow :=
  { r with
    name := name.getD r.name,
    description := description.getD r.description,
    color := color.getD r.color,
    updated_at := now }

/-- `UPDATE tags SET ... WHERE id = id` (continued): see `tagPatch`. -/
def updateTag (s : DBState) (now : Nat) (id : Nat)
    (name description color : Option String) : Except DbErr DBState :=
  match s.tags.find? (fun r => r.id = id) with
  | none => .ok s
  | some r =>
    if s.tags.any (fun q => q.id ≠ id ∧ q.name = (tagPatch now name description color r).name) then
      .error (.uniqueViolation "tags_name_key")
    else
      .ok { s with tags := s.tags.map (fun q =>
        if q.id = id then tagPatch now name description color r else q) }

/-- `UPDATE environments SET ... WHERE id = id`, with the
`update_environments_updated_at` trigger and the unique and check
constraints of the table. -/
def envPatch (now : Nat) (name slug description : Option String)
    (active : Option Bool) (priority : Option Int) (r : EnvRow) : EnvRow :=
  { r with
    name := name.getD r.name,
    slug := slug.getD r.slug,
    description := description.getD r.description,
    active := active.getD r.active,
    priority := priority.getD r.priority,
    updated_at := now }

/-- `UPDATE environments SET ... WHERE id = id` (continued): see
`envPatch`. -/
def updateEnvironment (s : DBState) (now : Nat) (id : Nat)
    (name slug description : Option String) (active : Option Bool)
    (priority : Option Int) : Except DbErr DBState :=
  match s.environments.find? (fun r => r.id = id) with
  | none => .ok s
  | some r =>
    if s.environments.any (fun q => q.id ≠ id ∧
        q.name = (envPatch now name slug description active priority r).name) then
      .error (.uniqueViolation "environments_name_key")
    else if s.environments.any (fun q => q.id ≠ id ∧
        q.slug = (envPatch now name slug description active priority r).slug) then
      .error (.uniqueViolation "environments_slug_key")
    else if ¬ (0 ≤ (envPatch now name slug description active priority r).priority ∧
        (envPatch now name slug description active priority r).priority ≤ 100) then
      .error (.checkViolation "environments_priority_check")
    else
      .ok { s with environments := s.environments.map (fun q =>
        if q.id = id then envPatch now name slug description active priority r else q) }

/-- `UPDATE templates SET ... WHERE id = id`, with the
`update_templates_updated_at` trigger, the `(name, environment_id)`
unique constraint and the environment foreign key. -/
def templatePatch (now : Nat) (name description : Option String)
    (format : Option ConfigFormat) (content : Option String)
    (schema default_values : Option (Option JObj)) (version : Option String)
    (environment_id : Option Nat) (active : Option Bool)
    (updated_by : Option String) (t : TemplateRow) : TemplateRow :=
  { t with
    name := name.getD t.name,
    description := description.getD t.description,
    format := format.getD t.format,
    content := content.getD t.content,
    schema := schema.getD t.schema,
    default_values := default_values.getD t.default_values,
    version := version.getD t.version,
    environment_id := environment_id.getD t.environment_id,
    active := active.getD t.active,
    updated_by := updated_by.getD t.updated_by,
    updated_at := now }

/-- `UPDATE templates SET ... WHERE id = id` (continued): see
`templatePatch`. -/
def updateTemplate (s : DBState) (now : Nat) (id : Nat)
    (name description : Option String) (format : Option ConfigFormat)
    (content : Option String) (schema default_values : Option (Option JObj))
    (version : Option String) (environment_id : Option Nat)
    (active : Option Bool) (updated_by : Option String) :
    Except DbErr DBState :=
  match s.templates.find? (fun t => t.id = id) with
  | none => .ok s
  | some t =>
    if s.templates.any (fun q => q.id ≠ id ∧
        q.name = (templatePatch now name description format content schema
          default_values version environment_id active updated_by t).name ∧
        q.environment_id = (templatePatch now name description format content schema
          default_values version environment_id active updated_by t).environment_id) then
      .error (.uniqueViolation "templates_name_environment_id_key")
    else if ¬ s.environments.any (fun e =>
        e.id = (templatePatch now name description format content schema
          default_values version environment_id active updated_by t).environment_id) then
      .error (.fkViolation "templates_environment_id_fkey")
    else
      .ok { s with templates := s.templates.map (fun q =>
        if q.id = id then templatePatch now name description format content schema
          default_values version environment_id active updated_by t else q) }

/-- `DELETE FROM tags WHERE id = id`: the `ON DELETE CASCADE` clause on
`template_tags.tag_id` removes the junction rows of the tag; no other
table is touched. -/
def deleteTag (s : DBState) (id : Nat) : DBState :=
  { s with
    tags := s.tags.filter (fun r => r.id ≠ id),
    template_tags := s.template_tags.filter (fun tt => tt.tag_id ≠ id) }

/-- `DELETE FROM templates WHERE id = id`: cascades to the template's
junction rows via `template_tags.template_id`. -/
def deleteTemplate (s : DBState) (id : Nat) : DBState :=
  { s with
    templates := s.templates.filter (fun t => t.id ≠ id),
    template_tags := s.template_tags.filter (fun tt => tt.template_id ≠ id) }

/-- `DELETE FROM environments WHERE id = id`: cascades to every template
of the environment via `templates.environment_id`, and from those
templates to their junction rows via `template_tags.template_id`. -/
def deleteEnvironment (s : DBState) (id : Nat) : DBState :=
  { s with
    environments := s.environments.filter (fun e => e.id ≠ id),
    templates := s.templates.filter (fun t => t.environment_id ≠ id),
    template_tags := s.template_tags.filter (fun tt =>
      ¬ s.templates.any (fun t => t.id = tt.template_id ∧ t.environment_id = id)) }

/-- `DELETE FROM template_tags WHERE template_id = ... AND tag_id = ...`:
unlinks one tag from one template. -/
def deleteTemplateTag (s : DBState) (template_id tag_id : Nat) : DBState :=
  { s with template_tags := s.template_tags.filter (fun tt =>
      ¬ (tt.template_id = template_id ∧ tt.tag_id = tag_id)) }

/-- The tag ids currently linked to a template through `template_tags`. -/
def templateTagIds (s : DBState) (tmplId : Nat) : List Nat :=
  (s.template_tags.filter (fun tt => tt.template_id = tmplId)).map (fun tt => tt.tag_id)

/-- The database states reachable from a fresh schema through the
statements the schema supports. -/
inductive Reachable : DBState → Prop where
  | init : Reachable dbInit
  | stepInsertTag {s s' : DBState} {now : Nat} {n d c : String} :
      Reachable s → insertTag s now n d c = .ok s' → Reachable s'
  | stepInsertEnvironment {s s' : DBState} {now : Nat} {n sl d : String}
      {a : Bool} {p : Int} :
      Reachable s → insertEnvironment s now n sl d a p = .ok s' → Reachable s'
  | stepInsertTemplate {s s' : DBState} {now : Nat} {n d : String}
      {f : ConfigFormat} {c : String} {sch dv : Option JObj} {v : String}
      {eid : Nat} {a : Bool} {cb ub : String} :
      Reachable s →
      insertTemplate s now n d f c sch dv v eid a cb ub = .ok s' → Reachable s'
  | stepInsertTemplateTag {s s' : DBState} {tid gid : Nat} :
      Reachable s → insertTemplateTag s tid gid = .ok s' → Reachable s'
  | stepUpdateTag {s s' : DBState} {now id : Nat} {n d c : Option String} :
      Reachable s → updateTag s now id n d c = .ok s' → Reachable s'
  | stepUpdateEnvironment {s s' : DBState} {now id : Nat}
      {n sl d : Option String} {a : Option Bool} {p : Option Int} :
      Reachable s →
      updateEnvironment s now id n sl d a p = .ok s' → Reachable s'
  | stepUpdateTemplate {s s' : DBState} {now id : Nat} {n d : Option String}
      {f : Option ConfigFormat} {c : Option String}
      {sch dv : Option (Option JObj)} {v : Option String} {eid : Option Nat}
      {a : Option Bool} {ub : Option String} :
      Reachable s →
      updateTemplate s now id n d f c sch dv v eid a ub = .ok s' → Reachable s'
  | stepDeleteTag {s : DBState} {id : Nat} :
      Reachable s → Reachable (deleteTag s id)
  | stepDeleteTemplate {s : DBState} {id : Nat} :
      Reachable s → Reachable (deleteTemplate s id)
  | stepDeleteEnvironment {s : DBState} {id : Nat} :
      Reachable s → Reachable (deleteEnvironment s id)
  | stepDeleteTemplateTag {s : DBState} {tid gid : Nat} :
      Reachable s → Reachable (deleteTemplateTag s tid gid)

/-! ## Request records (from the model package of the source) -/

/-- `CreateTagRequest` with validate tags
`name: required,min=1,max=100`, `description: max=500`,
`color: required,hexcolor`. -/
structure CreateTagRequest where
  name : String
  description : String
  color : String
deriving DecidableEq, Repr

/-- `UpdateTagRequest`: every field optional (`omitempty`), same bounds
as creation when present. -/
structure UpdateTagRequest where
  name : Option String
  description : Option String
  color : Option String
deriving DecidableEq, Repr

/-- `CreateEnvironmentRequest` with validate tags
`name: required,min=1,max=100`, `slug: required,min=1,max=100,alphanum`,
`description: max=500`, optional `active`, optional
`priority: min=0,max=100`. -/
structure CreateEnvironmentRequest where
  name : String
  slug : String
  description : String
  active : Option Bool
  priority : Option Int
deriving DecidableEq, Repr

/-- `UpdateEnvironmentRequest`: every field optional, same bounds as
creation when present. -/
structure UpdateEnvironmentRequest where
  name : Option String
  slug : Option String
  description : Option String
  active : Option Bool
  priority : Option Int
deriving DecidableEq, Repr

/-- `CreateTemplateRequest` with validate tags
`name: required,min=1,max=200`, `description: max=1000`,
`format: required,oneof=json yaml toml env`, `content: required`,
`version: required,semver`, `environment_id: required`,
`created_by: required`; `schema`/`default_values`/`tag_ids`/`active`
optional. -/
structure CreateTemplateRequest where
  name : String
  description : String
  format : ConfigFormat
  content : String
  schema : Option JObj
  default_values : Option JObj
  version : String
  environment_id : Nat
  tag_ids : List Nat
  active : Option Bool
  created_by : String

/-- `UpdateTemplateRequest`: scalar fields optional with the creation
bounds when present; `updated_by: required`. -/
structure UpdateTemplateRequest where
  name : Option String
  description : Option String
  format : Option ConfigFormat
  content : Option String
  schema : Option JObj
  default_values : Option JObj
  version : Option String
  environment_id : Option Nat
  tag_ids : List Nat
  active : Option Bool
  updated_by : String

/-! ## Validation layer

The source declares the constraints as `validate:` struct tags (checked
by a validator library) but contains no handler executing them; the
executable validators below are therefore modelled from the spec. -/

/-- `min=a,max=b` length bounds on a string (also covering `required`
for strings, which demands a non-empty value). -/
def strLenBetween (lo hi : Nat) (v : String) : Bool :=
  lo ≤ v.length && v.length ≤ hi

/-- A hexadecimal digit. -/
def isHexDigitChar (c : Char) : Bool :=
  c.isDigit || ('a' ≤ c && c ≤ 'f') || ('A' ≤ c && c ≤ 'F')

/-- The `hexcolor` constraint: a hash sign followed by three or six hex
digits. -/
def isHexColor (s : String) : Bool :=
  match s.data with
  | '#' :: rest => (rest.length = 3 || rest.length = 6) && rest.all isHexDigitChar
  | _ => false

/-- The `alphanum` constraint: every character alphanumeric. -/
def isAlphanumStr (s : String) : Bool :=
  s.data.all Char.isAlphanum

/-- A non-empty string of decimal digits. -/
def isNumeral (l : List Char) : Bool :=
  !l.isEmpty && l.all Char.isDigit

/-- Modelled from the spec: the `semver` constraint ("semantic-version
syntax"), modelled by its core grammar MAJOR.MINOR.PATCH of decimal
numerals. -/
def isSemver (s : String) : Bool :=
  match s.splitOn "." with
  | [a, b, c] => isNumeral a.data && isNumeral b.data && isNumeral c.data
  | _ => false

/-- The `oneof=json yaml toml env` constraint (also covering `required`,
which demands a non-empty string value). -/
def isDeclaredFormat (f : ConfigFormat) : Bool :=
  f.val = "json" || f.val = "yaml" || f.val = "toml" || f.val = "env"

/-- One field-level check: an empty violation list when the condition
holds, otherwise the single entry for this field. -/
def fieldCheck (ok : Bool) (field reason : String) : List (String × String) :=
  if ok then [] else [(field, reason)]

/-- A check applied only when the optional field is present. -/
def optCheck {α : Type} (o : Option α) (chk : α → List (String × String)) :
    List (String × String) :=
  match o with
  | none => []
  | some v => chk v

/-- Modelled from the spec: validation of a tag creation request —
every field checked, all violations collected in order. -/
def validateCreateTag (r : CreateTagRequest) : List (String × String) :=
  fieldCheck (strLenBetween 1 100 r.name) "name"
    "name must be between 1 and 100 characters" ++
  fieldCheck (strLenBetween 0 500 r.description) "description"
    "description must be at most 500 characters" ++
  fieldCheck (isHexColor r.color) "color"
    "color must be a hex color"

/-- Modelled from the spec: validation of a tag update request —
present fields checked, all violations collected. -/
def validateUpdateTag (r : UpdateTagRequest) : List (String × String) :=
  optCheck r.name (fun v => fieldCheck (strLenBetween 1 100 v) "name"
    "name must be between 1 and 100 characters") ++
  optCheck r.description (fun v => fieldCheck (strLenBetween 0 500 v) "description"
    "description must be at most 500 characters") ++
  optCheck r.color (fun v => fieldCheck (isHexColor v) "color"
    "color must be a hex color")

/-- Modelled from the spec: validation of an environment creation
request. -/
def validateCreateEnvironment (r : CreateEnvironmentRequest) :
    List (String × String) :=
  fieldCheck (strLenBetween 1 100 r.name) "name"
    "name must be between 1 and 100 characters" ++
  fieldCheck (strLenBetween 1 100 r.slug && isAlphanumStr r.slug) "slug"
    "slug must be 1 to 100 alphanumeric characters" ++
  fieldCheck (strLenBetween 0 500 r.description) "description"
    "description must be at most 500 characters" ++
  optCheck r.priority (fun p => fieldCheck (decide (0 ≤ p ∧ p ≤ 100)) "priority"
    "priority must be between 0 and 100")

/-- Modelled from the spec: validation of an environment update
request. -/
def validateUpdateEnvironment (r : UpdateEnvironmentRequest) :
    List (String × String) :=
  optCheck r.name (fun v => fieldCheck (strLenBetween 1 100 v) "name"
    "name must be between 1 and 100 characters") ++
  optCheck r.slug (fun v => fieldCheck (strLenBetween 1 100 v && isAlphanumStr v) "slug"
    "slug must be 1 to 100 alphanumeric characters") ++
  optCheck r.description (fun v => fieldCheck (strLenBetween 0 500 v) "description"
    "description must be at most 500 characters") ++
  optCheck r.priority (fun p => fieldCheck (decide (0 ≤ p ∧ p ≤ 100)) "priority"
    "priority must be between 0 and 100")

/-- Modelled from the spec: validation of a template creation request. -/
def validateCreateTemplate (r : CreateTemplateRequest) :
    List (String × String) :=
  fieldCheck (strLenBetween 1 200 r.name) "name"
    "name must be between 1 and 200 characters" ++
  fieldCheck (strLenBetween 0 1000 r.description) "description"
    "description must be at most 1000 characters" ++
  fieldCheck (isDeclaredFormat r.format) "format"
    "format must be one of json, yaml, toml, env" ++
  fieldCheck (decide (1 ≤ r.content.length)) "content"
    "content is required" ++
  fieldCheck (isSemver r.version) "version"
    "version must be a semantic version" ++
  fieldCheck (decide (r.environment_id ≠ 0)) "environment_id"
    "environment_id is required" ++
  fieldCheck (decide (r.created_by ≠ "")) "created_by"
    "created_by is required"

/-- Modelled from the spec: validation of a template update request. -/
def validateUpdateTemplate (r : UpdateTemplateRequest) :
    List (String × String) :=
  optCheck r.name (fun v => fieldCheck (strLenBetween 1 200 v) "name"
    "name must be between 1 and 200 characters") ++
  optCheck r.description (fun v => fieldCheck (strLenBetween 0 1000 v) "description"
    "description must be at most 1000 characters") ++
  optCheck r.format (fun v => fieldCheck (isDeclaredFormat v) "format"
    "format must be one of json, yaml, toml, env") ++
  optCheck r.content (fun v => fieldCheck (decide (1 ≤ v.length)) "content"
    "content must not be empty") ++
  optCheck r.version (fun v => fieldCheck (isSemver v) "version"
    "version must be a semantic version") ++
  fieldCheck (decide (r.updated_by ≠ "")) "updated_by"
    "updated_by is required"

/-- An application-level error of the entity service. -/
inductive AppError where
  | validation (details : List (String × String))
  | conflict (msg : String)
  | badReference (msg : String)

/-- Translation of a store error surfaced through the service. -/
def dbErrToApp : DbErr → AppError
  | .uniqueViolation c => .conflict c
  | .checkViolation c => .conflict c
  | .fkViolation c => .badReference c

/-- Modelled from the spec: the create-tag operation — validate the
request first and persist only when the violation list is empty. -/
def serviceCreateTag (s : DBState) (now : Nat) (r : CreateTagRequest) :
    Except AppError DBState :=
  match validateCreateTag r with
  | [] =>
    match insertTag s now r.name r.description r.color with
    | .ok s2 => .ok s2
    | .error e => .error (dbErrToApp e)
  | v => .error (.validation v)

/-- Modelled from the spec: the update-tag operation. -/
def serviceUpdateTag (s : DBState) (now id : Nat) (r : UpdateTagRequest) :
    Except AppError DBState :=
  match validateUpdateTag r with
  | [] =>
    match updateTag s now id r.name r.description r.color with
    | .ok s2 => .ok s2
    | .error e => .error (dbErrToApp e)
  | v => .error (.validation v)

/-- Modelled from the spec: the create-environment operation; the DDL
defaults (`active true`, `priority 50`) fill absent optional fields. -/
def serviceCreateEnvironment (s : DBState) (now : Nat)
    (r : CreateEnvironmentRequest) : Except AppError DBState :=
  match validateCreateEnvironment r with
  | [] =>
    match insertEnvironment s now r.name r.slug r.description
        (r.active.getD true) (r.priority.getD 50) with
    | .ok s2 => .ok s2
    | .error e => .error (dbErrToApp e)
  | v => .error (.validation v)

/-- Modelled from the spec: the update-environment operation. -/
def serviceUpdateEnvironment (s : DBState) (now id : Nat)
    (r : UpdateEnvironmentRequest) : Except AppError DBState :=
  match validateUpdateEnvironment r with
  | [] =>
    match updateEnvironment s now id r.name r.slug r.description
        r.active r.priority with
    | .ok s2 => .ok s2
    | .error e => .error (dbErrToApp e)
  | v => .error (.validation v)

/-- Modelled from the spec: the create-template operation. -/
def serviceCreateTemplate (s : DBState) (now : Nat)
    (r : CreateTemplateRequest) : Except AppError DBState :=
  match validateCreateTemplate r with
  | [] =>
    match insertTemplate s now r.name r.description r.format r.content
        r.schema r.default_values r.version r.environment_id
        (r.active.getD true) r.created_by r.created_by with
    | .ok s2 => .ok s2
    | .error e => .error (dbErrToApp e)
  | v => .error (.validation v)

/-- Modelled from the spec: the update-template operation; an absent
scalar field leaves the column untouched, a present document field
replaces the stored document. -/
def serviceUpdateTemplate (s : DBState) (now id : Nat)
    (r : UpdateTemplateRequest) : Except AppError DBState :=
  match validateUpdateTemplate r with
  | [] =>
    match updateTemplate s now id r.name r.description r.format r.content
        (r.schema.map some) (r.default_values.map some) r.version
        r.environment_id r.active (some r.updated_by) with
    | .ok s2 => .ok s2
    | .error e => .error (dbErrToApp e)
  | v => .error (.validation v)

/-! ## Migration runner

`migrations.go` wraps the golang-migrate library.  The engine state is
the ordered list of source migration versions, the version row of the
`schema_migrations` table (`none` before any migration) and the dirty
flag; the engine semantics (`Up`, `Steps`, `ErrNoChange`, the dirty
check) model that external library. -/

/-- The migration engine state. -/
structure MigState where
  available : List Nat
  current : Option Nat
  dirty : Bool
deriving DecidableEq, Repr

/-- An error of the migration engine. -/
inductive MigErr where
  | noChange
  | dirtyState (v : Nat)
deriving DecidableEq, Repr

/-- Error text of an engine error. -/
def MigErr.msg : MigErr → String
  | .noChange => "no change"
  | .dirtyState v => "Dirty database version " ++ toString v ++ ". Fix and force version."

/-- The source versions strictly above the current version: the pending
migrations. -/
def pendingVersions (s : MigState) : List Nat :=
  match s.current with
  | none => s.available
  | some v => s.available.filter (fun w => v < w)

/-- Engine `Up`: refuse a dirty state; with no pending version return
`ErrNoChange`; otherwise run every pending migration in order, ending at
the highest version. -/
def migrateUp (s : MigState) : Except MigErr MigState :=
  if s.dirty then .error (.dirtyState (s.current.getD 0))
  else
    match pendingVersions s with
    | [] => .error .noChange
    | p :: ps => .ok { s with current := some (ps.foldl max p) }

/-- The version reached by rolling the current version back one step:
the highest source version strictly below it. -/
def prevVersion (avail : List Nat) (v : Nat) : Option Nat :=
  (avail.filter (fun w => w < v)).getLast?

/-- Engine single rollback: refuse a dirty state; `ErrNoChange` with no
applied version; otherwise run the down migration of the current
version. -/
def rollbackOne (s : MigState) : Except MigErr MigState :=
  if s.dirty then .error (.dirtyState (s.current.getD 0))
  else
    match s.current with
    | none => .error .noChange
    | some v => .ok { s with current := prevVersion s.available v }

/-- Engine `Steps` with a negative argument: roll back that many
versions one at a time. -/
def migrateStepsBack : Nat → MigState → Except MigErr MigState
  | 0, s => .ok s
  | k + 1, s =>
    match rollbackOne s with
    | .ok s2 => migrateStepsBack k s2
    | .error e => .error e

/-- What `MigrationRunner.Up` reports through its logs. -/
inductive UpReport where
  | applied
  | noChange
deriving DecidableEq, Repr

/-- `MigrationRunner.Up` from the source: delegate to the engine; treat
`ErrNoChange` as success, logging "No new migrations to apply"; wrap any
other engine error. -/
def MigrationRunner.Up (s : MigState) : Except String (MigState × UpReport) :=
  match migrateUp s with
  | .ok s2 => .ok (s2, .applied)
  | .error .noChange => .ok (s, .noChange)
  | .error e => .error ("failed to run migrations: " ++ e.msg)

/-- `MigrationRunner.Down` from the source: call `migrate.Steps(-1)` —
one single rollback, no count parameter — and wrap any engine error. -/
def MigrationRunner.Down (s : MigState) : Except String MigState :=
  match migrateStepsBack 1 s with
  | .ok s2 => .ok s2
  | .error e => .error ("failed to rollback migration: " ++ e.msg)

/-- Modelled from the spec: `Down(n)` rolls back the last `n` applied
versions in reverse order (the claimed interface of the runner). -/
def specDown (n : Nat) (s : MigState) : Except String MigState :=
  match migrateStepsBack n s with
  | .ok s2 => .ok s2
  | .error e => .error ("failed to rollback migration: " ++ e.msg)

/-- A store already at the latest migration version, not dirty. -/
def atLatest (s : MigState) : Prop :=
  s.dirty = false ∧ pendingVersions s = []

/-! ## Health, readiness and list handlers

Dependency probes are modelled by their outcome: `none` when the ping
within its timeout succeeded, `some e` when it failed with error text
`e`.  Latency and check-time strings are abstract inputs. -/

/-- `model.ServiceHealthInfo`. -/
structure ServiceHealthInfo where
  status : String
  message : String
  latency : String
  lastCheck : String
deriving DecidableEq, Repr

/-- `model.ErrorResponse`. -/
structure ErrorResponse where
  error : String
  message : String
  details : List (String × String)
deriving DecidableEq, Repr

/-- `model.SuccessResponse` (without the unused data field). -/
structure SuccessResponse where
  message : String
deriving DecidableEq, Repr

/-- `model.HealthResponse`. -/
structure HealthResponse where
  status : String
  version : String
  services : List (String × ServiceHealthInfo)
deriving DecidableEq, Repr

/-- `Handler.checkDatabase` from the source. -/
def Handler.checkDatabase (dbErr : Option String) (lat lc : String) :
    ServiceHealthInfo :=
  match dbErr with
  | some e => { status := "unhealthy", message := e, latency := lat, lastCheck := lc }
  | none => { status := "healthy", message := "Database connection is healthy",
              latency := lat, lastCheck := lc }

/-- `Handler.checkRedis` from the source. -/
def Handler.checkRedis (redisErr : Option String) (lat lc : String) :
    ServiceHealthInfo :=
  match redisErr with
  | some e => { status := "unhealthy", message := e, latency := lat, lastCheck := lc }
  | none => { status := "healthy", message := "Redis connection is healthy",
              latency := lat, lastCheck := lc }

/-- `Handler.Health` from the source: check both dependencies, report a
per-dependency status map and an overall status, 200 when healthy and
503 otherwise. -/
def Handler.Health (version : String) (dbErr redisErr : Option String)
    (latD lcD latR lcR : String) : Nat × HealthResponse :=
  let dbH := Handler.checkDatabase dbErr latD lcD
  let rdH := Handler.checkRedis redisErr latR lcR
  let overall := if dbH.status ≠ "healthy" ∨ rdH.status ≠ "healthy"
    then "unhealthy" else "healthy"
  (if overall = "healthy" then 200 else 503,
   { status := overall, version := version,
     services := [("database", dbH), ("redis", rdH)] })

/-- The body of a readiness response. -/
inductive ReadyBody where
  | fail (e : ErrorResponse)
  | ready (s : SuccessResponse)
deriving DecidableEq, Repr

/-- `Handler.Readiness` from the source: check the database first, then
Redis; the first failing check answers 503 with a fixed error code and a
message naming that dependency; otherwise 200. -/
def Handler.Readiness (dbErr redisErr : Option String) : Nat × ReadyBody :=
  match dbErr with
  | some _ => (503, .fail {
      error := "service_not_ready",
      message := "Database is not ready", details := [] })
  | none =>
    match redisErr with
    | some _ => (503, .fail {
        error := "service_not_ready",
        message := "Redis is not ready", details := [] })
    | none => (200, .ready { message := "Service is ready" })

/-- `Handler.Liveness` from the source: no dependency checks at all. -/
def Handler.Liveness : Nat × ReadyBody :=
  (200, .ready { message := "Service is alive" })

/-- One row of the environments list endpoint. -/
structure EnvListItem where
  id : Nat
  name : String
  slug : String
  description : String
  active : Bool
  priority : Int
deriving DecidableEq, Repr

/-- One row of the tags list endpoint. -/
structure TagListItem where
  id : Nat
  name : String
  description : String
  color : String
deriving DecidableEq, Repr

/-- The body of a list endpoint response: `gin.H{"error": ...}` on
failure, the item list plus total on success. -/
inductive ListBody (α : Type) where
  | fail (errText : String)
  | items (rows : List α) (total : Nat)
deriving DecidableEq, Repr

/-- `getEnvironments` from the source: a query (or row scan) error is
answered with status 500 and a body whose error field is `err.Error()`,
the raw storage error text; nothing is logged.  Success is answered with
the rows and their count. -/
def getEnvironments (q : Except String (List EnvListItem)) :
    Nat × ListBody EnvListItem :=
  match q with
  | .error e => (500, .fail e)
  | .ok rows => (200, .items rows rows.length)

/-- `getTags` from the source: same shape as `getEnvironments`. -/
def getTags (q : Except String (List TagListItem)) :
    Nat × ListBody TagListItem :=
  match q with
  | .error e => (500, .fail e)
  | .ok rows => (200, .items rows rows.length)

/-! ## Concrete states used by witnesses -/

/-- Engine state: versions 1..3 available, all three applied, clean. -/
def migSt3 : MigState := { available := [1, 2, 3], current := some 3, dirty := false }

/-- Engine state: versions 1..3 available, versions 1 and 2 applied. -/
def migSt2 : MigState := { available := [1, 2, 3], current := some 2, dirty := false }

/-- Engine state: versions 1..3 available, only version 1 applied. -/
def migSt1 : MigState := { available := [1, 2, 3], current := some 1, dirty := false }

/-- Engine state: versions 1 and 2 available, none applied yet. -/
def migW0 : MigState := { available := [1, 2], current := none, dirty := false }

/-- Engine state: versions 1 and 2 available, both applied, clean. -/
def migW1 : MigState := { available := [1, 2], current := some 2, dirty := false }


/-- The structural invariant the schema maintains: primary keys unique
and below their sequence, and the declared unique constraints
(`tags.name`, `environments.name`, `environments.slug`,
`templates(name, environment_id)`) hold. -/
def DbInv (s : DBState) : Prop :=
  (s.tags.map TagRow.id).Nodup ∧
  (∀ r ∈ s.tags, r.id < s.nextTagId) ∧
  (s.tags.map TagRow.name).Nodup ∧
  (s.environments.map EnvRow.id).Nodup ∧
  (∀ r ∈ s.environments, r.id < s.nextEnvId) ∧
  (s.environments.map EnvRow.name).Nodup ∧
  (s.environments.map EnvRow.slug).Nodup ∧
  (s.templates.map TemplateRow.id).Nodup ∧
  (∀ t ∈ s.templates, t.id < s.nextTemplateId) ∧
  (s.templates.map (fun t => (t.name, t.environment_id))).Nodup

/-- The first seeded tag row, inserted at time 5. -/
def tagRow1 : TagRow :=
  { id := 1, name := "database", description := "Database configuration templates",
    color := "#3b82f6", created_at := 5, updated_at := 5 }

/-- The same row after an update at time 9: the trigger refreshed
`updated_at`. -/
def tagRow1u : TagRow :=
  { id := 1, name := "database", description := "Database configuration templates",
    color := "#3b82f6", created_at := 5, updated_at := 9 }

/-- The store after inserting `tagRow1` into a fresh schema. -/
def dbW1 : DBState :=
  { tags := [tagRow1], environments := [], templates := [], template_tags := [],
    nextTagId := 2, nextEnvId := 1, nextTemplateId := 1 }

/-- The store `dbW1` after the update at time 9. -/
def dbW1u : DBState :=
  { tags := [tagRow1u], environments := [], templates := [], template_tags := [],
    nextTagId := 2, nextEnvId := 1, nextTemplateId := 1 }

/-- A populated store: two tags, one environment, two templates of that
environment, three tag links. -/
def dbRich : DBState :=
  { tags := [
      { id := 1, name := "database", description := "", color := "#3b82f6",
        created_at := 1, updated_at := 1 },
      { id := 2, name := "api", description := "", color := "#10b981",
        created_at := 1, updated_at := 1 }],
    environments := [
      { id := 1, name := "Development", slug := "dev", description := "",
        active := true, priority := 10, created_at := 1, updated_at := 1 }],
    templates := [
      { id := 1, name := "db-config", description := "", format := ConfigFormatYAML,
        content := "a: 1", schema := none, default_values := none,
        version := "1.0.0", environment_id := 1, active := true,
        created_at := 2, updated_at := 2, created_by := "ci", updated_by := "ci" },
      { id := 2, name := "svc-config", description := "", format := ConfigFormatJSON,
        content := "x", schema := none, default_values := none,
        version := "1.0.0", environment_id := 1, active := true,
        created_at := 2, updated_at := 2, created_by := "ci", updated_by := "ci" }],
    template_tags := [
      { template_id := 1, tag_id := 1 },
      { template_id := 1, tag_id := 2 },
      { template_id := 2, tag_id := 1 }],
    nextTagId := 3, nextEnvId := 2, nextTemplateId := 3 }

/-- A tag creation request violating two fields at once: empty name and
non-hex color. -/
def rBadTag : CreateTagRequest :=
  { name := "", description := "", color := "red" }

/-! ## Helper lemmas -/

/-- The seed of a maximum fold bounds the fold from below. -/
theorem init_le_foldl_max (l : List Nat) : ∀ init : Nat, init ≤ l.foldl max init := by
  induction l with
  | nil => intro init; simp
  | cons b l ih =>
    intro init
    exact le_trans (le_max_left init b) (ih (max init b))

/-- Every member of a list bounds its maximum fold from below. -/
theorem le_foldl_max_of_mem (l : List Nat) :
    ∀ (init a : Nat), a ∈ l → a ≤ l.foldl max init := by
  induction l with
  | nil => intro init a h; simp at h
  | cons b l ih =>
    intro init a h
    rcases List.mem_cons.mp h with rfl | h2
    · exact le_trans (le_max_right init a) (init_le_foldl_max l (max init a))
    · exact ih (max init b) a h2

/-! ## C10 -/

/-- C10: `ConfigFormat.Scan` returns an error exactly on driver values
that are neither nil nor a string; nil scans to the `json` format; any
string `s` scans to `ConfigFormat s` with no membership check in the
four declared formats — in particular the out-of-enum value "xml" is
accepted on read. -/
theorem C10_configformat_scan (v : SqlVal) :
    ((∃ e, ConfigFormat.Scan v = .error e) ↔ (v ≠ .null ∧ ∀ s, v ≠ .str s)) ∧
    ConfigFormat.Scan .null = .ok ConfigFormatJSON ∧
    (∀ s, ConfigFormat.Scan (.str s) = .ok ⟨s⟩) ∧
    ConfigFormat.Scan (.str "xml") = .ok ⟨"xml"⟩ ∧
    (⟨"xml"⟩ : ConfigFormat) ≠ ConfigFormatJSON ∧
    (⟨"xml"⟩ : ConfigFormat) ≠ ConfigFormatYAML ∧
    (⟨"xml"⟩ : ConfigFormat) ≠ ConfigFormatTOML ∧
    (⟨"xml"⟩ : ConfigFormat) ≠ ConfigFormatEnv := by
  refine ⟨?_, rfl, fun s => rfl, rfl, by decide, by decide, by decide, by decide⟩
  cases v <;> simp [ConfigFormat.Scan]

/-! ## C7 (corrected) -/

/-- C7 counterexample: on a storage failure both list handlers answer
with a body whose error field is exactly the storage layer's internal
error text — not an opaque message — and the model records no logging
step, contradicting the claim that the internal text never reaches the
caller. -/
theorem C7_counterexample :
    getEnvironments (.error "pq: connection refused") =
      (500, .fail "pq: connection refused") ∧
    getTags (.error "pq: password authentication failed") =
      (500, .fail "pq: password authentication failed") :=
  ⟨rfl, rfl⟩

/-- C7 (amended): for every storage failure, `getEnvironments` and
`getTags` answer status 500 with the storage error text itself in the
error field of the body (no opaque-message indirection, no logging);
successful queries are answered with the rows and their count. -/
theorem C7_handlers_surface_storage_error_text :
    (∀ e, getEnvironments (.error e) = (500, .fail e)) ∧
    (∀ e, getTags (.error e) = (500, .fail e)) ∧
    (∀ rows, getEnvironments (.ok rows) = (200, .items rows rows.length)) ∧
    (∀ rows, getTags (.ok rows) = (200, .items rows rows.length)) :=
  ⟨fun e => rfl, fun e => rfl, fun rows => rfl, fun rows => rfl⟩

/-! ## C8 (corrected) -/

/-- C8 counterexample: the not-ready response does identify which
dependency failed — a store failure answers "Database is not ready"
while a cache failure answers "Redis is not ready", two distinct
bodies — contradicting the claim that the not-ready response carries no
per-dependency detail. -/
theorem C8_counterexample :
    (Handler.Readiness (some "dial tcp: connection refused") none).2 =
      .fail { error := "service_not_ready",
              message := "Database is not ready", details := [] } ∧
    (Handler.Readiness none (some "dial tcp: connection refused")).2 =
      .fail { error := "service_not_ready",
              message := "Redis is not ready", details := [] } ∧
    ("Database is not ready" : String) ≠ "Redis is not ready" :=
  ⟨rfl, rfl, by decide⟩

/-- C8 (amended): `Readiness` answers a binary 200/503 signal — 200
exactly when both dependencies pass — and its 503 body carries the fixed
error code service_not_ready with an empty details map and no
per-dependency status entries, but its message names the first failing
dependency (the store when the store check fails, otherwise the cache);
`Health`, in contrast, reports one status entry for each of the two
dependencies. -/
theorem C8_readiness_binary_names_first_failure (dbErr redisErr : Option String) :
    ((Handler.Readiness dbErr redisErr).1 = 200 ↔ dbErr = none ∧ redisErr = none) ∧
    ((Handler.Readiness dbErr redisErr).1 = 200 ∨
      (Handler.Readiness dbErr redisErr).1 = 503) ∧
    (∀ e, (Handler.Readiness dbErr redisErr).2 = .fail e →
      e.error = "service_not_ready" ∧ e.details = [] ∧
      (dbErr ≠ none → e.message = "Database is not ready") ∧
      (dbErr = none → e.message = "Redis is not ready")) ∧
    (∀ v latD lcD latR lcR,
      ((Handler.Health v dbErr redisErr latD lcD latR lcR).2.services.map
        Prod.fst) = ["database", "redis"]) := by
  cases dbErr <;> cases redisErr <;>
    simp [Handler.Readiness, Handler.Health, Handler.checkDatabase, Handler.checkRedis]

/-! ## C4 (corrected) -/

/-- C4 counterexample: from the state with versions 1..3 applied, the
runner's Down — which takes no count argument — rolls back exactly one
version, landing at version 2, whereas the claimed `Down(n)` at count 2
would land at version 1; the two outcomes differ. -/
theorem C4_counterexample :
    MigrationRunner.Down migSt3 = .ok migSt2 ∧
    specDown 2 migSt3 = .ok migSt1 ∧
    migSt2 ≠ migSt1 :=
  ⟨rfl, rfl, by decide⟩

/-- C4 (amended): the runner's Down takes no count; on a clean state
with current version `v` it rolls back exactly the one most recent
applied version, landing on the highest available version below `v` —
it coincides with the claimed operation only at count 1. -/
theorem C4_down_rolls_back_exactly_one (s : MigState) (v : Nat)
    (hd : s.dirty = false) (hc : s.current = some v) :
    MigrationRunner.Down s = .ok { s with current := prevVersion s.available v } ∧
    MigrationRunner.Down s = specDown 1 s := by
  constructor
  · simp [MigrationRunner.Down, migrateStepsBack, rollbackOne, hd, hc]
  · simp [MigrationRunner.Down, specDown]

/-- C4 witness: the amended theorem applied at the concrete three-version
state. -/
theorem C4_down_witness :
    MigrationRunner.Down migSt3 =
      .ok { migSt3 with current := prevVersion migSt3.available 3 } :=
  (C4_down_rolls_back_exactly_one migSt3 3 rfl rfl).1

/-! ## C5 -/

/-- C5: after any successful `MigrationRunner.Up` — and more generally
from any clean state already at the latest version — calling Up again
changes nothing, reports no pending changes, and returns no error. -/
theorem C5_up_idempotent (s s2 : MigState) (r : UpReport)
    (h : MigrationRunner.Up s = .ok (s2, r)) :
    MigrationRunner.Up s2 = .ok (s2, .noChange) ∧
    (∀ t : MigState, atLatest t → MigrationRunner.Up t = .ok (t, .noChange)) := by
  have latestNoChange : ∀ t : MigState, atLatest t →
      MigrationRunner.Up t = .ok (t, .noChange) := by
    intro t ht
    obtain ⟨hd, hp⟩ := ht
    simp [MigrationRunner.Up, migrateUp, hd, hp]
  refine ⟨?_, latestNoChange⟩
  cases hm : migrateUp s with
  | error e =>
    cases e with
    | noChange =>
      rw [MigrationRunner.Up, hm] at h
      obtain ⟨rfl, rfl⟩ : s = s2 ∧ UpReport.noChange = r := by
        simpa using h
      rw [MigrationRunner.Up, hm]
    | dirtyState v =>
      rw [MigrationRunner.Up, hm] at h
      simp at h
  | ok s3 =>
    rw [MigrationRunner.Up, hm] at h
    obtain ⟨rfl, rfl⟩ : s3 = s2 ∧ UpReport.applied = r := by
      simpa using h
    rw [migrateUp] at hm
    by_cases hd : s.dirty
    · simp [hd] at hm
    · simp only [hd, if_false, Bool.false_eq_true] at hm
      cases hpend : pendingVersions s with
      | nil => rw [hpend] at hm; simp at hm
      | cons p ps =>
        rw [hpend] at hm
        simp only [Except.ok.injEq] at hm
        apply latestNoChange
        subst hm
        constructor
        · simp [hd]
        · show pendingVersions { s with current := some (ps.foldl max p) } = []
          have hmem : ∀ w ∈ s.available, ¬ (ps.foldl max p < w) := by
            intro w hw hlt
            have hwpend : w ∈ pendingVersions s := by
              unfold pendingVersions
              cases hc : s.current with
              | none => simpa using hw
              | some v =>
                have hvp : v < p := by
                  have : p ∈ pendingVersions s := by rw [hpend]; exact List.mem_cons_self p ps
                  rw [pendingVersions, hc] at this
                  have := List.of_mem_filter this
                  simpa using this
                have hvw : v < w := by
                  have hple : p ≤ ps.foldl max p := init_le_foldl_max ps p
                  omega
                simp [List.mem_filter, hw, hvw]
            rw [hpend] at hwpend
            rcases List.mem_cons.mp hwpend with rfl | hwps
            · have := init_le_foldl_max ps w
              omega
            · have := le_foldl_max_of_mem ps p w hwps
              omega
          rw [pendingVersions]
          simp only
          rw [List.filter_eq_nil_iff]
          intro w hw
          simpa using hmem w hw

/-- C5 witness: applying Up from the clean unmigrated two-version state
succeeds, and the theorem yields that the second Up call reports no
pending changes on the reached state. -/
theorem C5_up_witness :
    MigrationRunner.Up migW1 = .ok (migW1, .noChange) :=
  (C5_up_idempotent migW0 migW1 .applied rfl).1

/-- Filtering preserves distinctness of a projection. -/
theorem nodup_map_filter {α β : Type} (l : List α) (p : α → Bool) (f : α → β)
    (h : (l.map f).Nodup) : ((l.filter p).map f).Nodup :=
  List.Nodup.sublist (List.Sublist.map f (List.filter_sublist l)) h

/-- Appending one row with a fresh projection preserves distinctness. -/
theorem nodup_map_append_single {α β : Type} (l : List α) (r : α) (f : α → β)
    (h : (l.map f).Nodup) (hr : f r ∉ l.map f) : ((l ++ [r]).map f).Nodup := by
  rw [List.map_append]
  simp [List.nodup_append, h, hr]

/-- Replacing the row of one id, when the replacement's projection
collides with no other row, preserves distinctness of the projection. -/
theorem nodup_map_update {α β : Type} (l : List α) (key : α → β)
    (idf : α → Nat) (id : Nat) (r2 : α)
    (hid : (l.map idf).Nodup) (hk : (l.map key).Nodup)
    (hfresh : ∀ q ∈ l, idf q ≠ id → key q ≠ key r2) :
    ((l.map (fun q => if idf q = id then r2 else q)).map key).Nodup := by
  induction l with
  | nil => simp
  | cons q l ih =>
    simp only [List.map_cons, List.nodup_cons] at hid hk
    obtain ⟨hqid, hid2⟩ := hid
    obtain ⟨hqk, hk2⟩ := hk
    have hfresh2 : ∀ a ∈ l, idf a ≠ id → key a ≠ key r2 :=
      fun a ha => hfresh a (List.mem_cons_of_mem _ ha)
    simp only [List.map_cons, List.nodup_cons]
    by_cases hq : idf q = id
    · have htail : l.map (fun a => if idf a = id then r2 else a) = l := by
        have : ∀ a ∈ l, (if idf a = id then r2 else a) = a := by
          intro a ha
          have hne : idf a ≠ id := by
            intro he
            exact hqid (hq ▸ he ▸ List.mem_map_of_mem idf ha)
          simp [hne]
        calc l.map (fun a => if idf a = id then r2 else a)
            = l.map (fun a => a) := List.map_congr_left this
          _ = l := List.map_id' l
      rw [if_pos hq, htail]
      refine ⟨?_, hk2⟩
      intro hmem
      obtain ⟨a, ha, hka⟩ := List.mem_map.mp hmem
      have hne : idf a ≠ id := by
        intro he
        exact hqid (hq ▸ he ▸ List.mem_map_of_mem idf ha)
      exact hfresh2 a ha hne hka
    · rw [if_neg hq]
      refine ⟨?_, ih hid2 hk2 hfresh2⟩
      intro hmem
      obtain ⟨a, ha, hka⟩ := List.mem_map.mp hmem
      obtain ⟨b, hb, rfl⟩ := List.mem_map.mp ha
      by_cases hbid : idf b = id
      · rw [if_pos hbid] at hka
        exact hfresh q (List.mem_cons_self q l) hq hka.symm
      · rw [if_neg hbid] at hka
        exact hqk (hka ▸ List.mem_map_of_mem key hb)

/-- Replacing the row of one id leaves any projection the replacement
agrees on unchanged. -/
theorem map_update_proj {α β : Type} (l : List α) (f : α → β) (idf : α → Nat)
    (id : Nat) (r2 : α) (h : ∀ q ∈ l, idf q = id → f r2 = f q) :
    (l.map (fun q => if idf q = id then r2 else q)).map f = l.map f := by
  rw [List.map_map]
  apply List.map_congr_left
  intro a ha
  by_cases hq : idf a = id
  · simp [Function.comp, hq, h a ha hq]
  · simp [Function.comp, hq]

/-- Replacing the row of one id preserves a bound on the ids when the
replacement obeys it. -/
theorem mem_update_bound {α : Type} (l : List α) (idf : α → Nat)
    (id bnd : Nat) (r2 : α) (h : ∀ q ∈ l, idf q < bnd) (h2 : idf r2 < bnd) :
    ∀ q ∈ l.map (fun a => if idf a = id then r2 else a), idf q < bnd := by
  intro q hq
  obtain ⟨b, hb, rfl⟩ := List.mem_map.mp hq
  by_cases hbid : idf b = id
  · simpa [hbid] using h2
  · simpa [hbid] using h b hb

/-- A successful tag insert preserves the schema invariant. -/
theorem insertTag_inv {s s2 : DBState} {now : Nat} {n d c : String}
    (h : DbInv s) (hop : insertTag s now n d c = .ok s2) : DbInv s2 := by
  obtain ⟨h1, h2, h3, h4, h5, h6, h7, h8, h9, h10⟩ := h
  rw [insertTag] at hop
  cases hdup : s.tags.any (fun r => r.name = n) with
  | true => rw [hdup] at hop; simp at hop
  | false =>
    rw [hdup, if_neg Bool.false_ne_true] at hop
    rw [Except.ok.injEq] at hop
    subst hop
    have hidfresh : s.nextTagId ∉ List.map TagRow.id s.tags := by
      intro hmem
      obtain ⟨r, hr, hrid⟩ := List.mem_map.mp hmem
      have := h2 r hr
      omega
    have hnamefresh : n ∉ List.map TagRow.name s.tags := by
      intro hmem
      obtain ⟨r, hr, hrn⟩ := List.mem_map.mp hmem
      have : ∀ r ∈ s.tags, ¬ r.name = n := by simpa using hdup
      exact this r hr hrn
    refine ⟨?_, ?_, ?_, h4, h5, h6, h7, h8, h9, h10⟩
    · exact nodup_map_append_single _ _ _ h1 hidfresh
    · intro r hr
      rcases List.mem_append.mp hr with hold | hnew
      · exact Nat.lt_succ_of_lt (h2 r hold)
      · rw [List.mem_singleton] at hnew
        subst hnew
        exact Nat.lt_succ_self _
    · exact nodup_map_append_single _ _ _ h3 hnamefresh

/-- A successful environment insert preserves the schema invariant. -/
theorem insertEnvironment_inv {s s2 : DBState} {now : Nat} {n sl d : String}
    {a : Bool} {p : Int}
    (h : DbInv s) (hop : insertEnvironment s now n sl d a p = .ok s2) : DbInv s2 := by
  obtain ⟨h1, h2, h3, h4, h5, h6, h7, h8, h9, h10⟩ := h
  rw [insertEnvironment] at hop
  cases hdn : s.environments.any (fun r => r.name = n) with
  | true => rw [hdn] at hop; simp at hop
  | false =>
    rw [hdn, if_neg Bool.false_ne_true] at hop
    cases hds : s.environments.any (fun r => r.slug = sl) with
    | true => rw [hds] at hop; simp at hop
    | false =>
      rw [hds, if_neg Bool.false_ne_true] at hop
      by_cases hp : 0 ≤ p ∧ p ≤ 100
      · rw [if_neg (not_not_intro hp)] at hop
        rw [Except.ok.injEq] at hop
        subst hop
        have hidfresh : s.nextEnvId ∉ List.map EnvRow.id s.environments := by
          intro hmem
          obtain ⟨r, hr, hrid⟩ := List.mem_map.mp hmem
          have := h5 r hr
          omega
        have hnamefresh : n ∉ List.map EnvRow.name s.environments := by
          intro hmem
          obtain ⟨r, hr, hrn⟩ := List.mem_map.mp hmem
          have : ∀ r ∈ s.environments, ¬ r.name = n := by simpa using hdn
          exact this r hr hrn
        have hslugfresh : sl ∉ List.map EnvRow.slug s.environments := by
          intro hmem
          obtain ⟨r, hr, hrn⟩ := List.mem_map.mp hmem
          have : ∀ r ∈ s.environments, ¬ r.slug = sl := by simpa using hds
          exact this r hr hrn
        refine ⟨h1, h2, h3, ?_, ?_, ?_, ?_, h8, h9, h10⟩
        · exact nodup_map_append_single _ _ _ h4 hidfresh
        · intro r hr
          rcases List.mem_append.mp hr with hold | hnew
          · exact Nat.lt_succ_of_lt (h5 r hold)
          · rw [List.mem_singleton] at hnew
            subst hnew
            exact Nat.lt_succ_self _
        · exact nodup_map_append_single _ _ _ h6 hnamefresh
        · exact nodup_map_append_single _ _ _ h7 hslugfresh
      · rw [if_pos hp] at hop
        simp at hop

/-- A successful template insert preserves the schema invariant. -/
theorem insertTemplate_inv {s s2 : DBState} {now : Nat} {n d : String}
    {f : ConfigFormat} {c : String} {sch dv : Option JObj} {v : String}
    {eid : Nat} {a : Bool} {cb ub : String}
    (h : DbInv s) (hop : insertTemplate s now n d f c sch dv v eid a cb ub = .ok s2) :
    DbInv s2 := by
  obtain ⟨h1, h2, h3, h4, h5, h6, h7, h8, h9, h10⟩ := h
  rw [insertTemplate] at hop
  cases hdup : s.templates.any (fun t => t.name = n ∧ t.environment_id = eid) with
  | true => rw [hdup] at hop; simp at hop
  | false =>
    rw [hdup, if_neg Bool.false_ne_true] at hop
    by_cases hfk : s.environments.any (fun e => e.id = eid)
    · rw [if_neg (not_not_intro hfk)] at hop
      rw [Except.ok.injEq] at hop
      subst hop
      have hidfresh : s.nextTemplateId ∉ List.map TemplateRow.id s.templates := by
        intro hmem
        obtain ⟨t, ht, htid⟩ := List.mem_map.mp hmem
        have := h9 t ht
        omega
      have hpairfresh : (n, eid) ∉
          s.templates.map (fun t => (t.name, t.environment_id)) := by
        intro hmem
        obtain ⟨t, ht, htp⟩ := List.mem_map.mp hmem
        rw [Prod.mk.injEq] at htp
        have : ∀ t ∈ s.templates, ¬ (t.name = n ∧ t.environment_id = eid) := by
          simpa using hdup
        exact this t ht htp
      refine ⟨h1, h2, h3, h4, h5, h6, h7, ?_, ?_, ?_⟩
      · exact nodup_map_append_single _ _ _ h8 hidfresh
      · intro t ht
        rcases List.mem_append.mp ht with hold | hnew
        · exact Nat.lt_succ_of_lt (h9 t hold)
        · rw [List.mem_singleton] at hnew
          subst hnew
          exact Nat.lt_succ_self _
      · exact nodup_map_append_single _ _ _ h10 hpairfresh
    · rw [if_pos hfk] at hop
      simp at hop

/-- A junction insert preserves the schema invariant. -/
theorem insertTemplateTag_inv {s s2 : DBState} {tid gid : Nat}
    (h : DbInv s) (hop : insertTemplateTag s tid gid = .ok s2) : DbInv s2 := by
  obtain ⟨h1, h2, h3, h4, h5, h6, h7, h8, h9, h10⟩ := h
  rw [insertTemplateTag] at hop
  cases hdup : s.template_tags.any (fun tt => tt.template_id = tid ∧ tt.tag_id = gid) with
  | true => rw [hdup] at hop; simp at hop
  | false =>
    rw [hdup, if_neg Bool.false_ne_true] at hop
    by_cases hfk1 : s.templates.any (fun t => t.id = tid)
    · rw [if_neg (not_not_intro hfk1)] at hop
      by_cases hfk2 : s.tags.any (fun r => r.id = gid)
      · rw [if_neg (not_not_intro hfk2)] at hop
        rw [Except.ok.injEq] at hop
        subst hop
        exact ⟨h1, h2, h3, h4, h5, h6, h7, h8, h9, h10⟩
      · rw [if_pos hfk2] at hop
        simp at hop
    · rw [if_pos hfk1] at hop
      simp at hop

/-- A successful tag update preserves the schema invariant. -/
theorem updateTag_inv {s s2 : DBState} {now id : Nat} {n d c : Option String}
    (h : DbInv s) (hop : updateTag s now id n d c = .ok s2) : DbInv s2 := by
  obtain ⟨h1, h2, h3, h4, h5, h6, h7, h8, h9, h10⟩ := h
  rw [updateTag] at hop
  cases hf : s.tags.find? (fun r => r.id = id) with
  | none =>
    rw [hf, Except.ok.injEq] at hop
    subst hop
    exact ⟨h1, h2, h3, h4, h5, h6, h7, h8, h9, h10⟩
  | some r =>
    rw [hf] at hop
    dsimp only at hop
    have hrmem : r ∈ s.tags := List.mem_of_find?_eq_some hf
    have hrid : r.id = id := by
      have := List.find?_some hf
      simpa using this
    cases hany : s.tags.any
        (fun q => q.id ≠ id ∧ q.name = (tagPatch now n d c r).name) with
    | true => rw [hany] at hop; simp at hop
    | false =>
      rw [hany, if_neg Bool.false_ne_true, Except.ok.injEq] at hop
      subst hop
      have hfresh : ∀ q ∈ s.tags, q.id ≠ id →
          q.name ≠ (tagPatch now n d c r).name := by
        have hall : ∀ q ∈ s.tags,
            ¬ (q.id ≠ id ∧ q.name = (tagPatch now n d c r).name) := by
          simpa using hany
        intro q hq hne heq
        exact hall q hq ⟨hne, heq⟩
      have hagree : ∀ q ∈ s.tags, q.id = id →
          TagRow.id (tagPatch now n d c r) = TagRow.id q := by
        intro q hq hqid
        show r.id = q.id
        rw [hrid, hqid]
      refine ⟨?_, ?_, ?_, h4, h5, h6, h7, h8, h9, h10⟩
      · have heq := map_update_proj s.tags TagRow.id TagRow.id id
          (tagPatch now n d c r) hagree
        exact heq.symm ▸ h1
      · exact mem_update_bound s.tags TagRow.id id s.nextTagId
          (tagPatch now n d c r) h2 (h2 r hrmem)
      · exact nodup_map_update s.tags TagRow.name TagRow.id id
          (tagPatch now n d c r) h1 h3 hfresh

/-- A successful environment update preserves the schema invariant. -/
theorem updateEnvironment_inv {s s2 : DBState} {now id : Nat}
    {n sl d : Option String} {a : Option Bool} {p : Option Int}
    (h : DbInv s) (hop : updateEnvironment s now id n sl d a p = .ok s2) :
    DbInv s2 := by
  obtain ⟨h1, h2, h3, h4, h5, h6, h7, h8, h9, h10⟩ := h
  rw [updateEnvironment] at hop
  cases hf : s.environments.find? (fun r => r.id = id) with
  | none =>
    rw [hf, Except.ok.injEq] at hop
    subst hop
    exact ⟨h1, h2, h3, h4, h5, h6, h7, h8, h9, h10⟩
  | some r =>
    rw [hf] at hop
    dsimp only at hop
    have hrmem : r ∈ s.environments := List.mem_of_find?_eq_some hf
    have hrid : r.id = id := by
      have := List.find?_some hf
      simpa using this
    cases hany1 : s.environments.any
        (fun q => q.id ≠ id ∧ q.name = (envPatch now n sl d a p r).name) with
    | true => rw [hany1] at hop; simp at hop
    | false =>
      rw [hany1, if_neg Bool.false_ne_true] at hop
      cases hany2 : s.environments.any
          (fun q => q.id ≠ id ∧ q.slug = (envPatch now n sl d a p r).slug) with
      | true => rw [hany2] at hop; simp at hop
      | false =>
        rw [hany2, if_neg Bool.false_ne_true] at hop
        by_cases hp : 0 ≤ (envPatch now n sl d a p r).priority ∧
            (envPatch now n sl d a p r).priority ≤ 100
        · rw [if_neg (not_not_intro hp), Except.ok.injEq] at hop
          subst hop
          have hfreshn : ∀ q ∈ s.environments, q.id ≠ id →
              q.name ≠ (envPatch now n sl d a p r).name := by
            have hall : ∀ q ∈ s.environments,
                ¬ (q.id ≠ id ∧ q.name = (envPatch now n sl d a p r).name) := by
              simpa using hany1
            intro q hq hne heq
            exact hall q hq ⟨hne, heq⟩
          have hfreshs : ∀ q ∈ s.environments, q.id ≠ id →
              q.slug ≠ (envPatch now n sl d a p r).slug := by
            have hall : ∀ q ∈ s.environments,
                ¬ (q.id ≠ id ∧ q.slug = (envPatch now n sl d a p r).slug) := by
              simpa using hany2
            intro q hq hne heq
            exact hall q hq ⟨hne, heq⟩
          have hagree : ∀ q ∈ s.environments, q.id = id →
              EnvRow.id (envPatch now n sl d a p r) = EnvRow.id q := by
            intro q hq hqid
            show r.id = q.id
            rw [hrid, hqid]
          refine ⟨h1, h2, h3, ?_, ?_, ?_, ?_, h8, h9, h10⟩
          · have heq := map_update_proj s.environments EnvRow.id EnvRow.id id
              (envPatch now n sl d a p r) hagree
            exact heq.symm ▸ h4
          · exact mem_update_bound s.environments EnvRow.id id s.nextEnvId
              (envPatch now n sl d a p r) h5 (h5 r hrmem)
          · exact nodup_map_update s.environments EnvRow.name EnvRow.id id
              (envPatch now n sl d a p r) h4 h6 hfreshn
          · exact nodup_map_update s.environments EnvRow.slug EnvRow.id id
              (envPatch now n sl d a p r) h4 h7 hfreshs
        · rw [if_pos hp] at hop
          simp at hop

/-- A successful template update preserves the schema invariant. -/
theorem updateTemplate_inv {s s2 : DBState} {now id : Nat}
    {n d : Option String} {f : Option ConfigFormat} {c : Option String}
    {sch dv : Option (Option JObj)} {v : Option String} {eid : Option Nat}
    {a : Option Bool} {ub : Option String}
    (h : DbInv s) (hop : updateTemplate s now id n d f c sch dv v eid a ub = .ok s2) :
    DbInv s2 := by
  obtain ⟨h1, h2, h3, h4, h5, h6, h7, h8, h9, h10⟩ := h
  rw [updateTemplate] at hop
  cases hf : s.templates.find? (fun t => t.id = id) with
  | none =>
    rw [hf, Except.ok.injEq] at hop
    subst hop
    exact ⟨h1, h2, h3, h4, h5, h6, h7, h8, h9, h10⟩
  | some t =>
    rw [hf] at hop
    dsimp only at hop
    have htmem : t ∈ s.templates := List.mem_of_find?_eq_some hf
    have htid : t.id = id := by
      have := List.find?_some hf
      simpa using this
    cases hany : s.templates.any (fun q => q.id ≠ id ∧
        q.name = (templatePatch now n d f c sch dv v eid a ub t).name ∧
        q.environment_id =
          (templatePatch now n d f c sch dv v eid a ub t).environment_id) with
    | true => rw [hany] at hop; simp at hop
    | false =>
      rw [hany, if_neg Bool.false_ne_true] at hop
      by_cases hfk : s.environments.any (fun e =>
          e.id = (templatePatch now n d f c sch dv v eid a ub t).environment_id)
      · rw [if_neg (not_not_intro hfk), Except.ok.injEq] at hop
        subst hop
        have hfresh : ∀ q ∈ s.templates, q.id ≠ id →
            (fun q => (q.name, q.environment_id)) q ≠
            (fun q => (q.name, q.environment_id))
              (templatePatch now n d f c sch dv v eid a ub t) := by
          have hall : ∀ q ∈ s.templates, ¬ (q.id ≠ id ∧
              q.name = (templatePatch now n d f c sch dv v eid a ub t).name ∧
              q.environment_id =
                (templatePatch now n d f c sch dv v eid a ub t).environment_id) := by
            simpa using hany
          intro q hq hne heq
          rw [Prod.mk.injEq] at heq
          exact hall q hq ⟨hne, heq.1, heq.2⟩
        have hagree : ∀ q ∈ s.templates, q.id = id →
            TemplateRow.id (templatePatch now n d f c sch dv v eid a ub t) =
            TemplateRow.id q := by
          intro q hq hqid
          show t.id = q.id
          rw [htid, hqid]
        refine ⟨h1, h2, h3, h4, h5, h6, h7, ?_, ?_, ?_⟩
        · have heq := map_update_proj s.templates TemplateRow.id TemplateRow.id id
            (templatePatch now n d f c sch dv v eid a ub t) hagree
          exact heq.symm ▸ h8
        · exact mem_update_bound s.templates TemplateRow.id id s.nextTemplateId
            (templatePatch now n d f c sch dv v eid a ub t) h9 (h9 t htmem)
        · exact nodup_map_update s.templates (fun q => (q.name, q.environment_id))
            TemplateRow.id id (templatePatch now n d f c sch dv v eid a ub t)
            h8 h10 hfresh
      · rw [if_pos hfk] at hop
        simp at hop

/-- Deleting a tag preserves the schema invariant. -/
theorem deleteTag_inv {s : DBState} (id : Nat) (h : DbInv s) :
    DbInv (deleteTag s id) := by
  obtain ⟨h1, h2, h3, h4, h5, h6, h7, h8, h9, h10⟩ := h
  refine ⟨?_, ?_, ?_, h4, h5, h6, h7, h8, h9, h10⟩
  · exact nodup_map_filter _ _ _ h1
  · intro r hr
    exact h2 r (List.mem_of_mem_filter hr)
  · exact nodup_map_filter _ _ _ h3

/-- Deleting a template preserves the schema invariant. -/
theorem deleteTemplate_inv {s : DBState} (id : Nat) (h : DbInv s) :
    DbInv (deleteTemplate s id) := by
  obtain ⟨h1, h2, h3, h4, h5, h6, h7, h8, h9, h10⟩ := h
  refine ⟨h1, h2, h3, h4, h5, h6, h7, ?_, ?_, ?_⟩
  · exact nodup_map_filter _ _ _ h8
  · intro t ht
    exact h9 t (List.mem_of_mem_filter ht)
  · exact nodup_map_filter _ _ _ h10

/-- Deleting an environment preserves the schema invariant. -/
theorem deleteEnvironment_inv {s : DBState} (id : Nat) (h : DbInv s) :
    DbInv (deleteEnvironment s id) := by
  obtain ⟨h1, h2, h3, h4, h5, h6, h7, h8, h9, h10⟩ := h
  refine ⟨h1, h2, h3, ?_, ?_, ?_, ?_, ?_, ?_, ?_⟩
  · exact nodup_map_filter _ _ _ h4
  · intro r hr
    exact h5 r (List.mem_of_mem_filter hr)
  · exact nodup_map_filter _ _ _ h6
  · exact nodup_map_filter _ _ _ h7
  · exact nodup_map_filter _ _ _ h8
  · intro t ht
    exact h9 t (List.mem_of_mem_filter ht)
  · exact nodup_map_filter _ _ _ h10

/-- Unlinking a tag from a template preserves the schema invariant. -/
theorem deleteTemplateTag_inv {s : DBState} (tid gid : Nat) (h : DbInv s) :
    DbInv (deleteTemplateTag s tid gid) := by
  obtain ⟨h1, h2, h3, h4, h5, h6, h7, h8, h9, h10⟩ := h
  exact ⟨h1, h2, h3, h4, h5, h6, h7, h8, h9, h10⟩

/-- Every reachable database state satisfies the schema invariant. -/
theorem reachable_inv {s : DBState} (h : Reachable s) : DbInv s := by
  induction h with
  | init =>
    refine ⟨?_, ?_, ?_, ?_, ?_, ?_, ?_, ?_, ?_, ?_⟩ <;> simp [dbInit]
  | stepInsertTag hh hop ih => exact insertTag_inv ih hop
  | stepInsertEnvironment hh hop ih => exact insertEnvironment_inv ih hop
  | stepInsertTemplate hh hop ih => exact insertTemplate_inv ih hop
  | stepInsertTemplateTag hh hop ih => exact insertTemplateTag_inv ih hop
  | stepUpdateTag hh hop ih => exact updateTag_inv ih hop
  | stepUpdateEnvironment hh hop ih => exact updateEnvironment_inv ih hop
  | stepUpdateTemplate hh hop ih => exact updateTemplate_inv ih hop
  | stepDeleteTag hh ih => exact deleteTag_inv _ ih
  | stepDeleteTemplate hh ih => exact deleteTemplate_inv _ ih
  | stepDeleteEnvironment hh ih => exact deleteEnvironment_inv _ ih
  | stepDeleteTemplateTag hh ih => exact deleteTemplateTag_inv _ _ ih

/-- Junction filter of a tag delete, seen through one template's tag
list: exactly the deleted tag's links disappear. -/
theorem filter_map_tagIds (l : List TemplateTagRow) (tid tmplId : Nat) :
    ((l.filter (fun tt => tt.tag_id ≠ tid)).filter
        (fun tt => tt.template_id = tmplId)).map TemplateTagRow.tag_id =
    ((l.filter (fun tt => tt.template_id = tmplId)).map
        TemplateTagRow.tag_id).filter (fun g => g ≠ tid) := by
  induction l with
  | nil => rfl
  | cons tt l ih =>
    rw [List.filter_cons, List.filter_cons]
    by_cases h1 : tt.tag_id = tid
    · rw [if_neg (by simp [h1])]
      by_cases h2 : tt.template_id = tmplId
      · rw [if_pos (by simp [h2]), List.map_cons, List.filter_cons,
          if_neg (by simp [h1])]
        exact ih
      · rw [if_neg (by simp [h2])]
        exact ih
    · rw [if_pos (by simp [h1]), List.filter_cons]
      by_cases h2 : tt.template_id = tmplId
      · rw [if_pos (by simp [h2]), if_pos (by simp [h2]), List.map_cons,
          List.map_cons, List.filter_cons, if_pos (by simp [h1]), ih]
      · rw [if_neg (by simp [h2]), if_neg (by simp [h2])]
        exact ih

/-- The store `dbW1` is reachable: one tag insert from a fresh schema. -/
theorem dbW1_reach : Reachable dbW1 :=
  Reachable.stepInsertTag Reachable.init
    (rfl : insertTag dbInit 5 "database" "Database configuration templates"
      "#3b82f6" = .ok dbW1)

/-- C1: in every reachable database state no two tag rows share a name,
no two environment rows share a name or a slug, and no two template rows
share a (name, environment_id) pair; and any insert that would violate
one of these constraints is rejected by the store itself with a
constraint violation, independent of any application-level validation. -/
theorem C1_storage_uniqueness (s : DBState) (h : Reachable s) :
    (s.tags.map TagRow.name).Nodup ∧
    (s.environments.map EnvRow.name).Nodup ∧
    (s.environments.map EnvRow.slug).Nodup ∧
    (s.templates.map (fun t => (t.name, t.environment_id))).Nodup ∧
    (∀ now n d c, (∃ r ∈ s.tags, r.name = n) →
      insertTag s now n d c = .error (.uniqueViolation "tags_name_key")) ∧
    (∀ now n sl d a p, (∃ r ∈ s.environments, r.name = n) →
      insertEnvironment s now n sl d a p =
        .error (.uniqueViolation "environments_name_key")) ∧
    (∀ now n sl d a p, (∃ r ∈ s.environments, r.slug = sl) →
      ∃ e, insertEnvironment s now n sl d a p = .error e) ∧
    (∀ now n d f c sch dv v eid a cb ub,
      (∃ t ∈ s.templates, t.name = n ∧ t.environment_id = eid) →
      insertTemplate s now n d f c sch dv v eid a cb ub =
        .error (.uniqueViolation "templates_name_environment_id_key")) := by
  obtain ⟨h1, h2, h3, h4, h5, h6, h7, h8, h9, h10⟩ := reachable_inv h
  refine ⟨h3, h6, h7, h10, ?_, ?_, ?_, ?_⟩
  · rintro now n d c ⟨r, hr, hrn⟩
    have hdup : s.tags.any (fun r => r.name = n) = true := by
      rw [List.any_eq_true]
      exact ⟨r, hr, by simpa using hrn⟩
    rw [insertTag, hdup, if_pos rfl]
  · rintro now n sl d a p ⟨r, hr, hrn⟩
    have hdup : s.environments.any (fun r => r.name = n) = true := by
      rw [List.any_eq_true]
      exact ⟨r, hr, by simpa using hrn⟩
    rw [insertEnvironment, hdup, if_pos rfl]
  · rintro now n sl d a p ⟨r, hr, hrs⟩
    have hdup : s.environments.any (fun r => r.slug = sl) = true := by
      rw [List.any_eq_true]
      exact ⟨r, hr, by simpa using hrs⟩
    cases hn : s.environments.any (fun r => r.name = n) with
    | true => exact ⟨_, by rw [insertEnvironment, hn, if_pos rfl]⟩
    | false =>
      exact ⟨_, by rw [insertEnvironment, hn, if_neg Bool.false_ne_true,
        hdup, if_pos rfl]⟩
  · rintro now n d f c sch dv v eid a cb ub ⟨t, ht, htp⟩
    have hdup : s.templates.any
        (fun t => t.name = n ∧ t.environment_id = eid) = true := by
      rw [List.any_eq_true]
      exact ⟨t, ht, by simpa using htp⟩
    rw [insertTemplate, hdup, if_pos rfl]

/-- C1 witness: the reachable one-tag store has pairwise distinct tag
names. -/
theorem C1_witness : (dbW1.tags.map TagRow.name).Nodup :=
  (C1_storage_uniqueness dbW1 dbW1_reach).1

/-- C2: deleting an environment removes exactly its own row and every
template referencing it, and leaves the tag rows untouched; deleting a
tag removes exactly the junction rows referencing it — template rows and
environment rows are bit-for-bit unchanged, and each template keeps
precisely its other tag links. -/
theorem C2_delete_cascade_frame (s : DBState) (eid tid : Nat) :
    (deleteEnvironment s eid).tags = s.tags ∧
    (∀ t : TemplateRow, t ∈ (deleteEnvironment s eid).templates ↔
      t ∈ s.templates ∧ t.environment_id ≠ eid) ∧
    (∀ e : EnvRow, e ∈ (deleteEnvironment s eid).environments ↔
      e ∈ s.environments ∧ e.id ≠ eid) ∧
    (deleteTag s tid).templates = s.templates ∧
    (deleteTag s tid).environments = s.environments ∧
    (∀ tt : TemplateTagRow, tt ∈ (deleteTag s tid).template_tags ↔
      tt ∈ s.template_tags ∧ tt.tag_id ≠ tid) ∧
    (∀ tmplId, templateTagIds (deleteTag s tid) tmplId =
      (templateTagIds s tmplId).filter (fun g => g ≠ tid)) := by
  refine ⟨rfl, ?_, ?_, rfl, rfl, ?_, ?_⟩
  · intro t
    simp [deleteEnvironment, List.mem_filter]
  · intro e
    simp [deleteEnvironment, List.mem_filter]
  · intro tt
    simp [deleteTag, List.mem_filter]
  · intro tmplId
    exact filter_map_tagIds s.template_tags tid tmplId

/-- C2 witness: in the populated store, deleting tag 1 leaves template 1
linked to exactly its other tag. -/
theorem C2_witness :
    templateTagIds (deleteTag dbRich 1) 1 =
      (templateTagIds dbRich 1).filter (fun g => g ≠ 1) :=
  (C2_delete_cascade_frame dbRich 1 1).2.2.2.2.2.2 1

/-- C3: on every insert the stored row carries `created_at = updated_at
= NOW()` (both column defaults); on every update — whatever optional
fields the statement sets, none of which may mention `updated_at` — the
`update_updated_at_column` trigger stamps the written row with the
current server time, preserving `created_at`, so a later update leaves
`updated_at` strictly after `created_at`.  Stated for all three
tables. -/
theorem C3_timestamps :
    (∀ s now n d c s2, insertTag s now n d c = .ok s2 →
      ∃ r, s2.tags = s.tags ++ [r] ∧ r.created_at = now ∧ r.updated_at = now) ∧
    (∀ s, Reachable s → ∀ now id n d c s2, updateTag s now id n d c = .ok s2 →
      ∀ r ∈ s.tags, r.id = id →
        ∃ r2, r2 ∈ s2.tags ∧ r2.id = id ∧ r2.updated_at = now ∧
          r2.created_at = r.created_at ∧
          (r.created_at < now → r2.created_at < r2.updated_at)) ∧
    (∀ s now n sl d a p s2, insertEnvironment s now n sl d a p = .ok s2 →
      ∃ r, s2.environments = s.environments ++ [r] ∧
        r.created_at = now ∧ r.updated_at = now) ∧
    (∀ s, Reachable s → ∀ now id n sl d a p s2,
      updateEnvironment s now id n sl d a p = .ok s2 →
      ∀ r ∈ s.environments, r.id = id →
        ∃ r2, r2 ∈ s2.environments ∧ r2.id = id ∧ r2.updated_at = now ∧
          r2.created_at = r.created_at ∧
          (r.created_at < now → r2.created_at < r2.updated_at)) ∧
    (∀ s now n d f c sch dv v eid a cb ub s2,
      insertTemplate s now n d f c sch dv v eid a cb ub = .ok s2 →
      ∃ t, s2.templates = s.templates ++ [t] ∧
        t.created_at = now ∧ t.updated_at = now) ∧
    (∀ s, Reachable s → ∀ now id n d f c sch dv v eid a ub s2,
      updateTemplate s now id n d f c sch dv v eid a ub = .ok s2 →
      ∀ t ∈ s.templates, t.id = id →
        ∃ t2, t2 ∈ s2.templates ∧ t2.id = id ∧ t2.updated_at = now ∧
          t2.created_at = t.created_at ∧
          (t.created_at < now → t2.created_at < t2.updated_at)) := by
  refine ⟨?_, ?_, ?_, ?_, ?_, ?_⟩
  · intro s now n d c s2 hop
    rw [insertTag] at hop
    cases hdup : s.tags.any (fun r => r.name = n) with
    | true => rw [hdup] at hop; simp at hop
    | false =>
      rw [hdup, if_neg Bool.false_ne_true, Except.ok.injEq] at hop
      subst hop
      exact ⟨_, rfl, rfl, rfl⟩
  · intro s hreach now id n d c s2 hop r hr hrid
    obtain ⟨h1, _, _, _, _, _, _, _, _, _⟩ := reachable_inv hreach
    rw [updateTag] at hop
    cases hf : s.tags.find? (fun q => q.id = id) with
    | none =>
      have := List.find?_eq_none.mp hf r hr
      simp [hrid] at this
    | some r0 =>
      rw [hf] at hop
      dsimp only at hop
      have hr0mem : r0 ∈ s.tags := List.mem_of_find?_eq_some hf
      have hr0id : r0.id = id := by
        have := List.find?_some hf
        simpa using this
      have hrr0 : r = r0 :=
        List.inj_on_of_nodup_map h1 hr hr0mem (by rw [hrid, hr0id])
      subst hrr0
      cases hany : s.tags.any
          (fun q => q.id ≠ id ∧ q.name = (tagPatch now n d c r).name) with
      | true => rw [hany] at hop; simp at hop
      | false =>
        rw [hany, if_neg Bool.false_ne_true, Except.ok.injEq] at hop
        subst hop
        refine ⟨tagPatch now n d c r, ?_, hr0id, rfl, rfl, fun hlt => hlt⟩
        exact List.mem_map.mpr ⟨r, hr, by rw [if_pos hr0id]⟩
  · intro s now n sl d a p s2 hop
    rw [insertEnvironment] at hop
    cases hdn : s.environments.any (fun r => r.name = n) with
    | true => rw [hdn] at hop; simp at hop
    | false =>
      rw [hdn, if_neg Bool.false_ne_true] at hop
      cases hds : s.environments.any (fun r => r.slug = sl) with
      | true => rw [hds] at hop; simp at hop
      | false =>
        rw [hds, if_neg Bool.false_ne_true] at hop
        by_cases hp : 0 ≤ p ∧ p ≤ 100
        · rw [if_neg (not_not_intro hp), Except.ok.injEq] at hop
          subst hop
          exact ⟨_, rfl, rfl, rfl⟩
        · rw [if_pos hp] at hop
          simp at hop
  · intro s hreach now id n sl d a p s2 hop r hr hrid
    obtain ⟨_, _, _, h4, _, _, _, _, _, _⟩ := reachable_inv hreach
    rw [updateEnvironment] at hop
    cases hf : s.environments.find? (fun q => q.id = id) with
    | none =>
      have := List.find?_eq_none.mp hf r hr
      simp [hrid] at this
    | some r0 =>
      rw [hf] at hop
      dsimp only at hop
      have hr0mem : r0 ∈ s.environments := List.mem_of_find?_eq_some hf
      have hr0id : r0.id = id := by
        have := List.find?_some hf
        simpa using this
      have hrr0 : r = r0 :=
        List.inj_on_of_nodup_map h4 hr hr0mem (by rw [hrid, hr0id])
      subst hrr0
      cases hany1 : s.environments.any
          (fun q => q.id ≠ id ∧ q.name = (envPatch now n sl d a p r).name) with
      | true => rw [hany1] at hop; simp at hop
      | false =>
        rw [hany1, if_neg Bool.false_ne_true] at hop
        cases hany2 : s.environments.any
            (fun q => q.id ≠ id ∧ q.slug = (envPatch now n sl d a p r).slug) with
        | true => rw [hany2] at hop; simp at hop
        | false =>
          rw [hany2, if_neg Bool.false_ne_true] at hop
          by_cases hp : 0 ≤ (envPatch now n sl d a p r).priority ∧
              (envPatch now n sl d a p r).priority ≤ 100
          · rw [if_neg (not_not_intro hp), Except.ok.injEq] at hop
            subst hop
            refine ⟨envPatch now n sl d a p r, ?_, hr0id, rfl, rfl, fun hlt => hlt⟩
            exact List.mem_map.mpr ⟨r, hr, by rw [if_pos hr0id]⟩
          · rw [if_pos hp] at hop
            simp at hop
  · intro s now n d f c sch dv v eid a cb ub s2 hop
    rw [insertTemplate] at hop
    cases hdup : s.templates.any (fun t => t.name = n ∧ t.environment_id = eid) with
    | true => rw [hdup] at hop; simp at hop
    | false =>
      rw [hdup, if_neg Bool.false_ne_true] at hop
      by_cases hfk : s.environments.any (fun e => e.id = eid)
      · rw [if_neg (not_not_intro hfk), Except.ok.injEq] at hop
        subst hop
        exact ⟨_, rfl, rfl, rfl⟩
      · rw [if_pos hfk] at hop
        simp at hop
  · intro s hreach now id n d f c sch dv v eid a ub s2 hop t ht htid
    obtain ⟨_, _, _, _, _, _, _, h8, _, _⟩ := reachable_inv hreach
    rw [updateTemplate] at hop
    cases hf : s.templates.find? (fun q => q.id = id) with
    | none =>
      have := List.find?_eq_none.mp hf t ht
      simp [htid] at this
    | some t0 =>
      rw [hf] at hop
      dsimp only at hop
      have ht0mem : t0 ∈ s.templates := List.mem_of_find?_eq_some hf
      have ht0id : t0.id = id := by
        have := List.find?_some hf
        simpa using this
      have htt0 : t = t0 :=
        List.inj_on_of_nodup_map h8 ht ht0mem (by rw [htid, ht0id])
      subst htt0
      cases hany : s.templates.any (fun q => q.id ≠ id ∧
          q.name = (templatePatch now n d f c sch dv v eid a ub t).name ∧
          q.environment_id =
            (templatePatch now n d f c sch dv v eid a ub t).environment_id) with
      | true => rw [hany] at hop; simp at hop
      | false =>
        rw [hany, if_neg Bool.false_ne_true] at hop
        by_cases hfk : s.environments.any (fun e =>
            e.id = (templatePatch now n d f c sch dv v eid a ub t).environment_id)
        · rw [if_neg (not_not_intro hfk), Except.ok.injEq] at hop
          subst hop
          refine ⟨templatePatch now n d f c sch dv v eid a ub t, ?_, ht0id,
            rfl, rfl, fun hlt => hlt⟩
          exact List.mem_map.mpr ⟨t, ht, by rw [if_pos ht0id]⟩
        · rw [if_pos hfk] at hop
          simp at hop

/-- C3 witness: the reachable one-tag store updated at time 9 carries
the trigger-stamped row: `updated_at` 9, `created_at` preserved at 5 and
strictly earlier. -/
theorem C3_witness :
    ∃ r2, r2 ∈ dbW1u.tags ∧ r2.id = 1 ∧ r2.updated_at = 9 ∧
      r2.created_at = tagRow1.created_at ∧
      (tagRow1.created_at < 9 → r2.created_at < r2.updated_at) :=
  C3_timestamps.2.1 dbW1 dbW1_reach 9 1 none none none dbW1u rfl tagRow1
    (List.mem_singleton_self tagRow1) rfl

/-- C6: every creation or update operation validates before touching the
store — on any violation it fails with a `ValidationError` carrying the
field-to-reason map and no state is produced — and the map collects
every violated field of the request, not only the first: each violated
field contributes its entry to the map. -/
theorem C6_validation_collects_all :
    (∀ s now r, validateCreateTag r ≠ [] →
      serviceCreateTag s now r = .error (.validation (validateCreateTag r))) ∧
    (∀ r : CreateTagRequest,
      (strLenBetween 1 100 r.name = false →
        "name" ∈ (validateCreateTag r).map Prod.fst) ∧
      (strLenBetween 0 500 r.description = false →
        "description" ∈ (validateCreateTag r).map Prod.fst) ∧
      (isHexColor r.color = false →
        "color" ∈ (validateCreateTag r).map Prod.fst)) ∧
    (∀ s now id r, validateUpdateTag r ≠ [] →
      serviceUpdateTag s now id r = .error (.validation (validateUpdateTag r))) ∧
    (∀ r : UpdateTagRequest,
      (∀ v, r.name = some v → strLenBetween 1 100 v = false →
        "name" ∈ (validateUpdateTag r).map Prod.fst) ∧
      (∀ v, r.description = some v → strLenBetween 0 500 v = false →
        "description" ∈ (validateUpdateTag r).map Prod.fst) ∧
      (∀ v, r.color = some v → isHexColor v = false →
        "color" ∈ (validateUpdateTag r).map Prod.fst)) ∧
    (∀ s now r, validateCreateEnvironment r ≠ [] →
      serviceCreateEnvironment s now r =
        .error (.validation (validateCreateEnvironment r))) ∧
    (∀ r : CreateEnvironmentRequest,
      (strLenBetween 1 100 r.name = false →
        "name" ∈ (validateCreateEnvironment r).map Prod.fst) ∧
      ((strLenBetween 1 100 r.slug && isAlphanumStr r.slug) = false →
        "slug" ∈ (validateCreateEnvironment r).map Prod.fst) ∧
      (strLenBetween 0 500 r.description = false →
        "description" ∈ (validateCreateEnvironment r).map Prod.fst) ∧
      (∀ p, r.priority = some p → ¬ (0 ≤ p ∧ p ≤ 100) →
        "priority" ∈ (validateCreateEnvironment r).map Prod.fst)) ∧
    (∀ s now id r, validateUpdateEnvironment r ≠ [] →
      serviceUpdateEnvironment s now id r =
        .error (.validation (validateUpdateEnvironment r))) ∧
    (∀ r : UpdateEnvironmentRequest,
      (∀ v, r.name = some v → strLenBetween 1 100 v = false →
        "name" ∈ (validateUpdateEnvironment r).map Prod.fst) ∧
      (∀ v, r.slug = some v → (strLenBetween 1 100 v && isAlphanumStr v) = false →
        "slug" ∈ (validateUpdateEnvironment r).map Prod.fst) ∧
      (∀ p, r.priority = some p → ¬ (0 ≤ p ∧ p ≤ 100) →
        "priority" ∈ (validateUpdateEnvironment r).map Prod.fst)) ∧
    (∀ s now r, validateCreateTemplate r ≠ [] →
      serviceCreateTemplate s now r =
        .error (.validation (validateCreateTemplate r))) ∧
    (∀ r : CreateTemplateRequest,
      (strLenBetween 1 200 r.name = false →
        "name" ∈ (validateCreateTemplate r).map Prod.fst) ∧
      (strLenBetween 0 1000 r.description = false →
        "description" ∈ (validateCreateTemplate r).map Prod.fst) ∧
      (isDeclaredFormat r.format = false →
        "format" ∈ (validateCreateTemplate r).map Prod.fst) ∧
      (r.content.length = 0 →
        "content" ∈ (validateCreateTemplate r).map Prod.fst) ∧
      (isSemver r.version = false →
        "version" ∈ (validateCreateTemplate r).map Prod.fst) ∧
      (r.environment_id = 0 →
        "environment_id" ∈ (validateCreateTemplate r).map Prod.fst) ∧
      (r.created_by = "" →
        "created_by" ∈ (validateCreateTemplate r).map Prod.fst)) ∧
    (∀ s now id r, validateUpdateTemplate r ≠ [] →
      serviceUpdateTemplate s now id r =
        .error (.validation (validateUpdateTemplate r))) ∧
    (∀ r : UpdateTemplateRequest,
      (∀ v, r.name = some v → strLenBetween 1 200 v = false →
        "name" ∈ (validateUpdateTemplate r).map Prod.fst) ∧
      (∀ v, r.format = some v → isDeclaredFormat v = false →
        "format" ∈ (validateUpdateTemplate r).map Prod.fst) ∧
      (∀ v, r.version = some v → isSemver v = false →
        "version" ∈ (validateUpdateTemplate r).map Prod.fst) ∧
      (r.updated_by = "" →
        "updated_by" ∈ (validateUpdateTemplate r).map Prod.fst)) := by
  refine ⟨?_, ?_, ?_, ?_, ?_, ?_, ?_, ?_, ?_, ?_, ?_, ?_⟩
  · intro s now r hv
    rw [serviceCreateTag]
    cases hval : validateCreateTag r with
    | nil => exact absurd hval hv
    | cons a l => rfl
  · intro r
    refine ⟨?_, ?_, ?_⟩ <;> intro h <;>
      simp [validateCreateTag, fieldCheck, h]
  · intro s now id r hv
    rw [serviceUpdateTag]
    cases hval : validateUpdateTag r with
    | nil => exact absurd hval hv
    | cons a l => rfl
  · intro r
    refine ⟨?_, ?_, ?_⟩ <;> intro v hv h <;>
      simp [validateUpdateTag, optCheck, fieldCheck, hv, h]
  · intro s now r hv
    rw [serviceCreateEnvironment]
    cases hval : validateCreateEnvironment r with
    | nil => exact absurd hval hv
    | cons a l => rfl
  · intro r
    refine ⟨?_, ?_, ?_, ?_⟩
    · intro h; simp [validateCreateEnvironment, fieldCheck, h]
    · intro h; simp [validateCreateEnvironment, fieldCheck, h]
    · intro h; simp [validateCreateEnvironment, fieldCheck, h]
    · intro p hp h
      simp [validateCreateEnvironment, optCheck, fieldCheck, hp, h]
  · intro s now id r hv
    rw [serviceUpdateEnvironment]
    cases hval : validateUpdateEnvironment r with
    | nil => exact absurd hval hv
    | cons a l => rfl
  · intro r
    refine ⟨?_, ?_, ?_⟩
    · intro v hv h
      simp [validateUpdateEnvironment, optCheck, fieldCheck, hv, h]
    · intro v hv h
      simp [validateUpdateEnvironment, optCheck, fieldCheck, hv, h]
    · intro p hp h
      simp [validateUpdateEnvironment, optCheck, fieldCheck, hp, h]
  · intro s now r hv
    rw [serviceCreateTemplate]
    cases hval : validateCreateTemplate r with
    | nil => exact absurd hval hv
    | cons a l => rfl
  · intro r
    refine ⟨?_, ?_, ?_, ?_, ?_, ?_, ?_⟩ <;> intro h <;>
      simp [validateCreateTemplate, fieldCheck, h]
  · intro s now id r hv
    rw [serviceUpdateTemplate]
    cases hval : validateUpdateTemplate r with
    | nil => exact absurd hval hv
    | cons a l => rfl
  · intro r
    refine ⟨?_, ?_, ?_, ?_⟩
    · intro v hv h
      simp [validateUpdateTemplate, optCheck, fieldCheck, hv, h]
    · intro v hv h
      simp [validateUpdateTemplate, optCheck, fieldCheck, hv, h]
    · intro v hv h
      simp [validateUpdateTemplate, optCheck, fieldCheck, hv, h]
    · intro h
      simp [validateUpdateTemplate, optCheck, fieldCheck, h]

/-- C6 witness: a request violating name and color at once is rejected
before persistence with both fields in the violation map. -/
theorem C6_witness :
    serviceCreateTag dbInit 0 rBadTag =
      .error (.validation (validateCreateTag rBadTag)) ∧
    "name" ∈ (validateCreateTag rBadTag).map Prod.fst ∧
    "color" ∈ (validateCreateTag rBadTag).map Prod.fst :=
  ⟨C6_validation_collects_all.1 dbInit 0 rBadTag (by decide),
   (C6_validation_collects_all.2.1 rBadTag).1 (by decide),
   (C6_validation_collects_all.2.1 rBadTag).2.2 (by decide)⟩

/-- Every render is non-empty. -/
theorem render_len_pos :
    (∀ x : JVal, 1 ≤ x.render.length) ∧
    (∀ xs : JArr, 1 ≤ (JArr.renderRest xs).length) ∧
    (∀ ms : JObj, 1 ≤ (JObj.renderRest ms).length) := by
  refine ⟨?_, ?_, ?_⟩
  · intro x
    cases x with
    | null => simp [JVal.render]
    | bool b => simp [JVal.render]
    | num n => simp [JVal.render]
    | str s => simp [JVal.render]
    | arr xs => cases xs <;> simp [JVal.render]
    | obj ms => cases ms <;> simp [JVal.render]
  · intro xs
    cases xs <;> simp [JArr.renderRest]
  · intro ms
    cases ms <;> simp [JObj.renderRest]

/-- A rendered value is non-empty and never starts with a closing
bracket. -/
theorem render_head_ne (x : JVal) :
    x.render.head? ≠ some JTok.rbrack ∧ x.render ≠ [] := by
  cases x with
  | null => simp [JVal.render]
  | bool b => simp [JVal.render]
  | num n => simp [JVal.render]
  | str s => simp [JVal.render]
  | arr xs => cases xs <;> simp [JVal.render]
  | obj ms => cases ms <;> simp [JVal.render]

/-- Round trip of the token parsers against the renderer, by induction
on the parser fuel: any fuel beyond the rendered length parses the
render back to the original document, leaving the rest of the input. -/
theorem parse_render_all (fuel : Nat) :
    (∀ x : JVal, ∀ rest, x.render.length < fuel →
      parseVal fuel (x.render ++ rest) = some (x, rest)) ∧
    (∀ xs : JArr, ∀ rest, (JArr.renderRest xs).length < fuel →
      parseArrRest fuel (JArr.renderRest xs ++ rest) = some (xs, rest)) ∧
    (∀ ms : JObj, ∀ rest, (JObj.renderRest ms).length < fuel →
      parseObjRest fuel (JObj.renderRest ms ++ rest) = some (ms, rest)) := by
  induction fuel with
  | zero =>
    refine ⟨?_, ?_, ?_⟩
    · intro x rest hlen
      exact absurd hlen (by omega)
    · intro xs rest hlen
      exact absurd hlen (by omega)
    · intro ms rest hlen
      exact absurd hlen (by omega)
  | succ fuel ih =>
    obtain ⟨ihv, iha, iho⟩ := ih
    refine ⟨?_, ?_, ?_⟩
    · intro x rest hlen
      cases x with
      | null => simp [JVal.render, parseVal]
      | bool b => simp [JVal.render, parseVal]
      | num n => simp [JVal.render, parseVal]
      | str s => simp [JVal.render, parseVal]
      | arr xs =>
        cases xs with
        | nil => simp [JVal.render, parseVal]
        | cons hd tl =>
          have hlen2 : hd.render.length < fuel ∧
              (JArr.renderRest tl).length < fuel := by
            have p1 := render_len_pos.1 hd
            have p2 := render_len_pos.2.1 tl
            simp [JVal.render] at hlen
            omega
          have hne1 := (render_head_ne hd).1
          have hne2 := (render_head_ne hd).2
          have ih1 := ihv hd (JArr.renderRest tl ++ rest) hlen2.1
          have ih2 := iha tl rest hlen2.2
          simp [JVal.render, parseVal, List.append_assoc, hne1, hne2, ih1, ih2]
      | obj ms =>
        cases ms with
        | nil => simp [JVal.render, parseVal]
        | cons k v tl =>
          have hlen2 : v.render.length < fuel ∧
              (JObj.renderRest tl).length < fuel := by
            have p1 := render_len_pos.1 v
            have p2 := render_len_pos.2.2 tl
            simp [JVal.render] at hlen
            omega
          have ih1 := ihv v (JObj.renderRest tl ++ rest) hlen2.1
          have ih2 := iho tl rest hlen2.2
          simp [JVal.render, parseVal, List.append_assoc, ih1, ih2]
    · intro xs rest hlen
      cases xs with
      | nil => simp [JArr.renderRest, parseArrRest]
      | cons hd tl =>
        have hlen2 : hd.render.length < fuel ∧
            (JArr.renderRest tl).length < fuel := by
          have p1 := render_len_pos.1 hd
          have p2 := render_len_pos.2.1 tl
          simp [JArr.renderRest] at hlen
          omega
        have ih1 := ihv hd (JArr.renderRest tl ++ rest) hlen2.1
        have ih2 := iha tl rest hlen2.2
        simp [JArr.renderRest, parseArrRest, List.append_assoc, ih1, ih2]
    · intro ms rest hlen
      cases ms with
      | nil => simp [JObj.renderRest, parseObjRest]
      | cons k v tl =>
        have hlen2 : v.render.length < fuel ∧
            (JObj.renderRest tl).length < fuel := by
          have p1 := render_len_pos.1 v
          have p2 := render_len_pos.2.2 tl
          simp [JObj.renderRest] at hlen
          omega
        have ih1 := ihv v (JObj.renderRest tl ++ rest) hlen2.1
        have ih2 := iho tl rest hlen2.2
        simp [JObj.renderRest, parseObjRest, List.append_assoc, ih1, ih2]

/-- C9: `schema` and `default_values` documents are pass-through — for
every document (arbitrary nested shape, uninspected in either
direction), `Value` followed by `Scan` returns an equal document; the
nil map serializes to the nil driver value, which scans back to the
empty document. -/
theorem C9_jsonmap_roundtrip :
    (∀ m : JObj, JSONMap.Scan (JSONMap.Value (some m)) = .ok m) ∧
    JSONMap.Scan (JSONMap.Value none) = .ok .nil := by
  refine ⟨?_, rfl⟩
  intro m
  have h := (parse_render_all ((JVal.render (.obj m)).length + 1)).1 (.obj m) []
    (by omega)
  rw [List.append_nil] at h
  simp [JSONMap.Value, JSONMap.Scan, h]
